import Mathlib

/-!
# Verification of the Zrythm audio-engine core against its specification

This file shallowly embeds the parts of the Zrythm real-time audio engine
that the specification talks about — the fader mute/solo/fade pipeline
(`src/gui/dsp/fader.cpp`), automation evaluation
(`src/gui/dsp/automation_track.cpp`), channel plugin wiring
(`src/gui/backend/channel.cpp`), arranger-object position validation
(`src/dsp/arranger_object.cpp`), the MIDI velocity fader, and the engine
event queue (`inc/dsp/engine.h`) — and proves or refutes the
specification's claims about them.

Conventions: C++ `float`/`double` become `ℚ` (exact arithmetic; the claims
under scrutiny are about exact data flow, not rounding), sample counts and
frame positions become `ℤ` or `ℕ`, and audio buffers become `List ℚ`
(the processed slice `[local_offset, local_offset + nframes)` of the port
buffer).  Functions whose implementation is not part of the sources at
hand (they live in translation units outside the excerpt) are modelled
from the specification and marked `Modelled from the spec:` in their doc
comment.
-/

/-! ## Fader data model (`src/gui/dsp/fader.cpp`) -/

/-- The fader types, from `Fader::Type`. -/
inductive FaderType where
  | AudioChannel
  | MidiChannel
  | Monitor
  | SampleProcessor
  deriving DecidableEq, Repr

instance : Fintype FaderType where
  elems := {FaderType.AudioChannel, FaderType.MidiChannel, FaderType.Monitor,
    FaderType.SampleProcessor}
  complete := by intro x; cases x <;> decide

/-- The inputs of `Fader::process_block` that decide effective muting:
the fader's own controls and type, its track's master/bounce flags, and
engine/tracklist-global state.  `trackIsMaster` / `trackBounce` describe
`get_track ()`; in `process_block` the local `track` variable is only
assigned for `Type::AudioChannel` faders, which the embedding reproduces. -/
structure FaderMuteCtx where
  /-- `passthrough_` (prefader). -/
  passthrough : Bool
  /-- `type_`. -/
  ftype : FaderType
  /-- `get_muted ()`: the mute control port is toggled. -/
  muted : Bool
  /-- `get_soloed ()`. -/
  soloed : Bool
  /-- `get_implied_soloed ()`. -/
  impliedSoloed : Bool
  /-- `TRACKLIST->get_track_span ().has_soloed ()`. -/
  hasSoloed : Bool
  /-- `AUDIO_ENGINE->bounce_mode_ == BounceMode::BOUNCE_ON`. -/
  bounceOn : Bool
  /-- `get_track ()->is_master ()` (equivalently `track == P_MASTER_TRACK`). -/
  trackIsMaster : Bool
  /-- `get_track ()->bounce_`. -/
  trackBounce : Bool
  deriving DecidableEq, Repr

/-- Whether the fader is an audio or MIDI channel fader
(`type_ == Type::AudioChannel || type_ == Type::MidiChannel`). -/
def FaderMuteCtx.isChannelFader (c : FaderMuteCtx) : Bool :=
  c.ftype = FaderType.AudioChannel || c.ftype = FaderType.MidiChannel

/-- In `Fader::process_block` the local `track` pointer is set only when
`type_ == Type::AudioChannel`; otherwise it stays `nullptr`. -/
def FaderMuteCtx.trackPtrSet (c : FaderMuteCtx) : Bool :=
  c.ftype = FaderType.AudioChannel

/-- `effectively_muted` as computed in `Fader::process_block`
(src/gui/dsp/fader.cpp:815-848).  For a passthrough (prefader) it stays
`false`.  Clause 2 carries `track != P_MASTER_TRACK`, where `track` is
null unless the fader is an audio channel fader; clause 3 requires the
(audio-channel-only) `track` pointer to be non-null. -/
def effectivelyMuted (c : FaderMuteCtx) : Bool :=
  if c.passthrough then false
  else
    c.muted
    || (c.isChannelFader && c.hasSoloed && !c.soloed && !c.impliedSoloed
        && !(c.trackPtrSet && c.trackIsMaster))
    || (c.bounceOn && c.isChannelFader && c.trackPtrSet
        && !c.trackIsMaster && !c.trackBounce)

/-- The effective-mute formula exactly as the specification's claim words
it: `mute OR (others_soloed AND !soloed AND !implied_soloed) OR
(bouncing AND !bounce AND !master)`, with the solo clause restricted to
audio/MIDI channel faders as the claim's prose says. -/
def effectivelyMutedSpec (c : FaderMuteCtx) : Bool :=
  c.muted
  || (c.isChannelFader && c.hasSoloed && !c.soloed && !c.impliedSoloed)
  || (c.bounceOn && !c.trackBounce && !c.trackIsMaster)

/-- C1 (counterexample): the master track's own (non-passthrough audio
channel) fader, with some other track soloed and everything else off, is
NOT effectively muted in the code — clause 2 of `effectively_muted`
additionally requires `track != P_MASTER_TRACK` — whereas the claim's
formula marks it muted. -/
theorem c1_effectively_muted_claim_false_on_master :
    effectivelyMuted
        { passthrough := false, ftype := FaderType.AudioChannel,
          muted := false, soloed := false, impliedSoloed := false,
          hasSoloed := true, bounceOn := false, trackIsMaster := true,
          trackBounce := false } = false
    ∧ effectivelyMutedSpec
        { passthrough := false, ftype := FaderType.AudioChannel,
          muted := false, soloed := false, impliedSoloed := false,
          hasSoloed := true, bounceOn := false, trackIsMaster := true,
          trackBounce := false } = true := by
  constructor <;> rfl

/-- C1 (amended): for every non-passthrough fader,
`effectively_muted = mute OR (channel fader AND others_soloed AND
!soloed AND !implied_soloed AND NOT (audio channel fader of the master
track)) OR (bounce mode AND audio channel fader AND !master AND
!bounce)`.  Relative to the claim, the solo clause excludes the master
track's audio fader, and the bounce clause only ever fires for audio
channel faders (the `track` pointer it tests is null for MIDI channel
faders). -/
theorem c1_effectively_muted_amended (c : FaderMuteCtx)
    (hp : c.passthrough = false) :
    effectivelyMuted c =
      (c.muted
       || (c.isChannelFader && c.hasSoloed && !c.soloed && !c.impliedSoloed
           && !(decide (c.ftype = FaderType.AudioChannel) && c.trackIsMaster))
       || (c.bounceOn && decide (c.ftype = FaderType.AudioChannel)
           && !c.trackIsMaster && !c.trackBounce)) := by
  obtain ⟨p, t, m, s, i, hs, b, tm, tb⟩ := c
  cases hp
  cases t <;> simp [effectivelyMuted, FaderMuteCtx.isChannelFader,
    FaderMuteCtx.trackPtrSet]

/-- C1 (witness for the amended theorem): evaluated at a concrete
non-passthrough MIDI channel fader context. -/
theorem c1_effectively_muted_amended_witness :
    (({ passthrough := false, ftype := FaderType.MidiChannel,
        muted := false, soloed := false, impliedSoloed := false,
        hasSoloed := true, bounceOn := true, trackIsMaster := false,
        trackBounce := false } : FaderMuteCtx).passthrough = false)
    ∧ effectivelyMuted
        { passthrough := false, ftype := FaderType.MidiChannel,
          muted := false, soloed := false, impliedSoloed := false,
          hasSoloed := true, bounceOn := true, trackIsMaster := false,
          trackBounce := false } =
      (true : Bool) := by
  refine ⟨rfl, ?_⟩
  have h := c1_effectively_muted_amended
    { passthrough := false, ftype := FaderType.MidiChannel,
      muted := false, soloed := false, impliedSoloed := false,
      hasSoloed := true, bounceOn := true, trackIsMaster := false,
      trackBounce := false } rfl
  rw [h]
  rfl

/-! ## MIDI fader velocity processing (`src/gui/dsp/fader.cpp:1141-1157`) -/

/-- `MidiFaderMode`. -/
inductive MidiFaderMode where
  | VelMultiplier
  | CCVolume
  deriving DecidableEq, Repr

/-- A MIDI channel event as the fader sees it: whether it is a note-on,
and its velocity byte. -/
structure FadMidiEvent where
  noteOn : Bool
  vel : ℕ
  deriving DecidableEq, Repr

/-- The C cast `(midi_byte_t) ((float) prev_vel * amp_val)`: truncation
toward zero of a non-negative float into an 8-bit byte.  For a value with
integer part outside `[0, 255]` the C conversion is undefined; the model
totalises it as reduction mod 256 (the theorems below only use it where
the integer part fits in a byte anyway). -/
def castToMidiByte (q : ℚ) : ℕ :=
  (⌊q⌋).toNat % 256

/-- The per-event body of the MIDI fader loop: in `VelMultiplier` mode a
note-on's velocity becomes
`min ((midi_byte_t) ((float) prev_vel * amp_val), 127)`; other events are
left alone. -/
def faderTransformMidiEvent (mode : MidiFaderMode) (amp : ℚ)
    (ev : FadMidiEvent) : FadMidiEvent :=
  if mode = MidiFaderMode.VelMultiplier && ev.noteOn then
    { ev with vel := min (castToMidiByte ((ev.vel : ℚ) * amp)) 127 }
  else ev

/-- The MIDI branch of `Fader::process_block`: nothing is forwarded while
effectively muted; a passthrough only copies; otherwise every event is
forwarded through the velocity transformation. -/
def faderProcessMidi (effMuted passthrough : Bool) (mode : MidiFaderMode)
    (amp : ℚ) (events : List FadMidiEvent) : List FadMidiEvent :=
  if effMuted then []
  else if passthrough then events
  else events.map (faderTransformMidiEvent mode amp)

/-- C10: in velocity-multiplier mode, with the amp control inside its
declared range `[0, 2]` and a wire-legal input velocity (≤ 127), the
emitted note-on velocity is exactly `min (⌊vel * amp⌋, 127)` — the byte
cast never truncates because `vel * amp ≤ 254 < 256` — and in particular
never exceeds 127. -/
theorem c10_vel_multiplier_clamped (amp : ℚ) (v : ℕ)
    (hv : v ≤ 127) (h0 : 0 ≤ amp) (h2 : amp ≤ 2) :
    (faderTransformMidiEvent MidiFaderMode.VelMultiplier amp
        ⟨true, v⟩).vel = min ((⌊(v : ℚ) * amp⌋).toNat) 127
    ∧ (faderTransformMidiEvent MidiFaderMode.VelMultiplier amp
        ⟨true, v⟩).vel ≤ 127 := by
  have hprod : (v : ℚ) * amp ≤ 254 := by
    have hvq : (v : ℚ) ≤ 127 := by exact_mod_cast hv
    nlinarith
  have hfloor : ⌊(v : ℚ) * amp⌋ ≤ 254 := by
    have : ⌊(v : ℚ) * amp⌋ ≤ ⌊(254 : ℚ)⌋ := Int.floor_le_floor hprod
    simpa using this
  have htoNat : (⌊(v : ℚ) * amp⌋).toNat < 256 := by omega
  have hcast : castToMidiByte ((v : ℚ) * amp) = (⌊(v : ℚ) * amp⌋).toNat := by
    simpa [castToMidiByte] using Nat.mod_eq_of_lt htoNat
  constructor
  · simp [faderTransformMidiEvent, hcast]
  · simp [faderTransformMidiEvent]

/-- C10 witness: amp 3/2 on velocity 100 gives
`min (⌊150⌋, 127) = 127`. -/
theorem c10_vel_multiplier_clamped_witness :
    (100 : ℕ) ≤ 127 ∧ (0 : ℚ) ≤ 3/2 ∧ (3/2 : ℚ) ≤ 2
    ∧ (faderTransformMidiEvent MidiFaderMode.VelMultiplier (3/2)
        ⟨true, 100⟩).vel = min ((⌊((100 : ℕ) : ℚ) * (3/2)⌋).toNat) 127 := by
  refine ⟨by decide, by norm_num, by norm_num, ?_⟩
  exact (c10_vel_multiplier_clamped (3/2) 100 (by decide) (by norm_num)
    (by norm_num)).1

/-! ## Arranger-object position validation (`src/dsp/arranger_object.cpp`) -/

/-- `ArrangerObject::PositionType`. -/
inductive PositionType where
  | Start
  | End
  | ClipStart
  | LoopStart
  | LoopEnd
  | FadeIn
  | FadeOut
  deriving DecidableEq, Repr

/-- The positional state of a region-like arranger object.  Positions are
total frames (`ℤ`, compared the way `Position::operator<=>` compares).
`pos`/`endPos` are timeline positions; clip/loop/fade positions are local
to the region.  `canFade` is `can_fade ()` (true for audio regions);
`clipFrames` is `clip->num_frames_` for audio regions and `none`
otherwise. -/
structure RegionPositions where
  pos : ℤ
  endPos : ℤ
  clipStart : ℤ
  loopStart : ℤ
  loopEnd : ℤ
  fadeIn : ℤ
  fadeOut : ℤ
  canFade : Bool
  clipFrames : Option ℤ
  deriving DecidableEq, Repr

/-- `ArrangerObject::is_position_valid` for a region
(`type_has_length = true`, `type_owned_by_region = false`),
src/dsp/arranger_object.cpp:291-414, clause by clause. -/
def isPositionValid (r : RegionPositions) (p : ℤ) : PositionType → Bool
  | PositionType.Start =>
    -- `pos >= end` rejects; global-pos check `pos < 0` rejects; for
    -- fadeable objects `fade_out - (pos - start) <= fade_in` rejects.
    !(decide (p ≥ r.endPos)) && !(decide (p < 0))
      && !(r.canFade && decide (r.fadeOut - (p - r.pos) ≤ r.fadeIn))
  | PositionType.LoopStart =>
    decide (p < r.loopEnd) && decide (p ≥ 0)
  | PositionType.LoopEnd =>
    -- `pos < clip_start || pos <= loop_start` rejects; audio regions
    -- additionally require `pos.frames <= clip->num_frames`.
    !(decide (p < r.clipStart) || decide (p ≤ r.loopStart))
      && (match r.clipFrames with
          | none => true
          | some n => decide (p ≤ n))
  | PositionType.ClipStart =>
    decide (p < r.loopEnd) && decide (p ≥ 0)
  | PositionType.End =>
    decide (p > r.pos)
      && !(r.canFade && decide (r.fadeOut + (p - r.endPos) ≤ r.fadeIn))
  | PositionType.FadeIn =>
    decide (p ≥ 0) && decide (p < r.endPos - r.pos) && decide (p < r.fadeOut)
  | PositionType.FadeOut =>
    decide (p ≥ 0) && decide (p ≤ r.endPos - r.pos) && decide (p > r.fadeIn)

/-- Store a new position into the field selected by `get_position_ptr`. -/
def storePosition (r : RegionPositions) (p : ℤ) : PositionType → RegionPositions
  | PositionType.Start => { r with pos := p }
  | PositionType.End => { r with endPos := p }
  | PositionType.ClipStart => { r with clipStart := p }
  | PositionType.LoopStart => { r with loopStart := p }
  | PositionType.LoopEnd => { r with loopEnd := p }
  | PositionType.FadeIn => { r with fadeIn := p }
  | PositionType.FadeOut => { r with fadeOut := p }

/-- `ArrangerObject::set_position` (src/dsp/arranger_object.cpp:459-476):
with `validate` on, an invalid position is rejected (returns `false`,
state untouched); otherwise the selected position is overwritten. -/
def setPosition (r : RegionPositions) (p : ℤ) (pt : PositionType)
    (validate : Bool) : Bool × RegionPositions :=
  if validate && !(isPositionValid r p pt) then (false, r)
  else (true, storePosition r p pt)

/-- The boundary invariants exactly as the claim states them:
`end > start`, `0 ≤ loop_start < loop_end`, `clip_start ∈ [0, loop_end)`,
and `fade_in < fade_out` with both inside `[0, end - start]`. -/
def regionBoundaryInvariants (r : RegionPositions) : Prop :=
  r.pos < r.endPos
  ∧ 0 ≤ r.loopStart ∧ r.loopStart < r.loopEnd
  ∧ 0 ≤ r.clipStart ∧ r.clipStart < r.loopEnd
  ∧ 0 ≤ r.fadeIn ∧ r.fadeIn < r.fadeOut ∧ r.fadeOut ≤ r.endPos - r.pos

instance (r : RegionPositions) : Decidable (regionBoundaryInvariants r) := by
  unfold regionBoundaryInvariants; infer_instance

/-- The invariants the validated setter actually maintains: as claimed,
except that `clip_start ≤ loop_end` (the loop-end validator accepts
`loop_end = clip_start`), and the fade bounds are only re-checked by the
setters that do not move `start`/`end` (moving `start` or `end` leaves
the stored fade positions untouched and only checks their mutual order,
so `fade_out ≤ end - start` can be broken by those two setters). -/
def regionInvariantsAfterSet (pt : PositionType) (r : RegionPositions) : Prop :=
  r.pos < r.endPos
  ∧ 0 ≤ r.loopStart ∧ r.loopStart < r.loopEnd
  ∧ 0 ≤ r.clipStart ∧ r.clipStart ≤ r.loopEnd
  ∧ (pt ≠ PositionType.Start → pt ≠ PositionType.End →
      0 ≤ r.fadeIn ∧ r.fadeIn < r.fadeOut ∧ r.fadeOut ≤ r.endPos - r.pos)

/-- C9 (counterexample): a region satisfying every claimed invariant
(start 0, end 100, clip_start 5, loop_start 0, loop_end 10) accepts
`loop_end := 5` through the validated setter — the validator only rejects
`pos < clip_start`, not `pos == clip_start` — and the resulting state
violates `clip_start ∈ [0, loop_end)`. -/
theorem c9_validated_setter_accepts_loop_end_eq_clip_start :
    regionBoundaryInvariants
      { pos := 0, endPos := 100, clipStart := 5, loopStart := 0,
        loopEnd := 10, fadeIn := 0, fadeOut := 1, canFade := false,
        clipFrames := none }
    ∧ (setPosition
        { pos := 0, endPos := 100, clipStart := 5, loopStart := 0,
          loopEnd := 10, fadeIn := 0, fadeOut := 1, canFade := false,
          clipFrames := none } 5 PositionType.LoopEnd true).1 = true
    ∧ ¬ regionBoundaryInvariants (setPosition
        { pos := 0, endPos := 100, clipStart := 5, loopStart := 0,
          loopEnd := 10, fadeIn := 0, fadeOut := 1, canFade := false,
          clipFrames := none } 5 PositionType.LoopEnd true).2 := by
  refine ⟨by decide, by decide, by decide⟩

/-- C9 (amended): starting from a region satisfying the claimed
invariants, the validated setter leaves the state untouched whenever it
rejects, and whenever it accepts the new state still satisfies
`end > start`, `0 ≤ loop_start < loop_end` and `clip_start ∈ [0,
loop_end]` — the closed upper end being reachable — while the fade
invariants are guaranteed only by the setters other than start/end. -/
theorem c9_set_position_preserves_invariants (r : RegionPositions) (p : ℤ)
    (pt : PositionType) (hinv : regionBoundaryInvariants r) :
    ((setPosition r p pt true).1 = false → (setPosition r p pt true).2 = r)
    ∧ ((setPosition r p pt true).1 = true →
        regionInvariantsAfterSet pt (setPosition r p pt true).2) := by
  obtain ⟨h1, h2, h3, h4, h5, h6, h7, h8⟩ := hinv
  by_cases hv : isPositionValid r p pt = true
  · have hset : setPosition r p pt true = (true, storePosition r p pt) := by
      simp [setPosition, hv]
    rw [hset]
    refine ⟨fun hfalse => by simp at hfalse, fun _ => ?_⟩
    unfold regionInvariantsAfterSet
    cases pt <;>
      simp only [isPositionValid, Bool.and_eq_true, Bool.not_eq_true',
        Bool.or_eq_false_iff, decide_eq_true_eq, decide_eq_false_iff_not,
        not_lt, not_le] at hv <;>
      simp only [storePosition, ne_eq, reduceCtorEq, not_false_eq_true,
        not_true_eq_false, forall_const, IsEmpty.forall_iff, implies_true,
        and_true, true_and, false_implies, true_implies] <;>
      omega
  · have hb : isPositionValid r p pt = false := by
      simpa using hv
    refine ⟨fun _ => ?_, fun htrue => ?_⟩
    · simp [setPosition, hb]
    · simp [setPosition, hb] at htrue

/-- C9 (witness for the amended theorem): the loop-start setter at a
concrete region. -/
theorem c9_set_position_preserves_invariants_witness :
    regionBoundaryInvariants
      { pos := 0, endPos := 100, clipStart := 0, loopStart := 0,
        loopEnd := 10, fadeIn := 0, fadeOut := 1, canFade := false,
        clipFrames := none }
    ∧ (((setPosition
        { pos := 0, endPos := 100, clipStart := 0, loopStart := 0,
          loopEnd := 10, fadeIn := 0, fadeOut := 1, canFade := false,
          clipFrames := none } 3 PositionType.LoopStart true).1 = false →
        (setPosition
        { pos := 0, endPos := 100, clipStart := 0, loopStart := 0,
          loopEnd := 10, fadeIn := 0, fadeOut := 1, canFade := false,
          clipFrames := none } 3 PositionType.LoopStart true).2 =
        { pos := 0, endPos := 100, clipStart := 0, loopStart := 0,
          loopEnd := 10, fadeIn := 0, fadeOut := 1, canFade := false,
          clipFrames := none })
      ∧ ((setPosition
        { pos := 0, endPos := 100, clipStart := 0, loopStart := 0,
          loopEnd := 10, fadeIn := 0, fadeOut := 1, canFade := false,
          clipFrames := none } 3 PositionType.LoopStart true).1 = true →
        regionInvariantsAfterSet PositionType.LoopStart (setPosition
        { pos := 0, endPos := 100, clipStart := 0, loopStart := 0,
          loopEnd := 10, fadeIn := 0, fadeOut := 1, canFade := false,
          clipFrames := none } 3 PositionType.LoopStart true).2)) :=
  ⟨by decide,
   c9_set_position_preserves_invariants _ 3 PositionType.LoopStart
     (by decide)⟩

/-! ## Automation evaluation (`src/gui/dsp/automation_track.cpp`) -/

/-- An automation point: local frame position, normalized value
(`normalized_val_`) and real value (`fvalue_`). -/
structure AutoPoint where
  pos : ℤ
  nval : ℚ
  fval : ℚ
  deriving DecidableEq, Repr

/-- An automation region: timeline start/end, local clip/loop positions,
mute state, and its ordered automation points. -/
structure AutoRegion where
  startPos : ℤ
  endPos : ℤ
  clipStart : ℤ
  loopStart : ℤ
  loopEnd : ℤ
  muted : Bool
  aps : List AutoPoint
  deriving DecidableEq, Repr

/-- The control port an automation track drives: its current real and
normalized control values and its range. -/
structure CtrlPort where
  control : ℚ
  normControl : ℚ
  minf : ℚ
  maxf : ℚ
  deriving DecidableEq, Repr

/-- `ControlPort::get_control_value (normalized)`. -/
def CtrlPort.getControlValue (p : CtrlPort) (normalized : Bool) : ℚ :=
  if normalized then p.normControl else p.control

/-- Modelled from the spec: `ControlPort::normalized_val_to_real` (the
control-port translation unit is not part of the excerpt); the port
"range (min/max/zero)" de-normalizes affinely. -/
def CtrlPort.normalizedValToReal (p : CtrlPort) (v : ℚ) : ℚ :=
  p.minf + v * (p.maxf - p.minf)

/-- Modelled from the spec: `Region::timeline_frames_to_local`
(region code is not part of the excerpt): "maps a global frame to an
offset inside the clip; when `normalize=true`, traverses loop boundaries
so the result lies in `[clip_start, loop_end)`".  The local offset is
`tl - start + clip_start`, reduced by whole loop lengths while it
reaches `loop_end`. -/
def timelineFramesToLocal (r : AutoRegion) (tl : ℤ) (normalize : Bool) : ℤ :=
  if normalize then
    let d := tl - r.startPos + r.clipStart
    if d < r.loopEnd then d
    else r.loopStart + (d - r.loopStart) % (r.loopEnd - r.loopStart)
  else tl - r.startPos

/-- `AutomationTrack::get_region_before_pos`
(src/gui/dsp/automation_track.cpp:164-222): with `ends_after` the latest
region containing `pos`; otherwise, among regions starting at or before
`pos`, the one whose end lies farthest after `pos` (strictly improving
while scanning the region list from the back). -/
def getRegionBeforePos (regions : List AutoRegion) (pos : ℤ)
    (endsAfter : Bool) : Option AutoRegion :=
  if endsAfter then
    regions.reverse.find? fun r =>
      decide (r.startPos ≤ pos) && decide (r.endPos ≥ pos)
  else
    regions.reverse.foldl
      (fun acc r =>
        if decide (r.startPos ≤ pos)
            && (match acc with
                | none => true
                | some b => decide (r.endPos - pos > b.endPos - pos)) then
          some r
        else acc)
      none

/-- The local position `get_ap_before_pos` / `get_val_at_pos` evaluate
at: `pos` itself, or `end - 1` when the region ends before `pos` and
`ends_after` is off. -/
def automationLocalPos (r : AutoRegion) (pos : ℤ) (endsAfter : Bool) : ℤ :=
  timelineFramesToLocal r
    (if !endsAfter && decide (r.endPos < pos) then r.endPos - 1 else pos) true

/-- `AutomationTrack::get_ap_before_pos`
(src/gui/dsp/automation_track.cpp:226-252): inside the governing
(unmuted) region, the last automation point at or before the local
position, scanning the point list from the back. -/
def getApBeforePos (regions : List AutoRegion) (pos : ℤ)
    (endsAfter : Bool) : Option AutoPoint :=
  match getRegionBeforePos regions pos endsAfter with
  | none => none
  | some r =>
    if r.muted then none
    else
      r.aps.reverse.find? fun ap =>
        decide (ap.pos ≤ automationLocalPos r pos endsAfter)

/-- Modelled from the spec: `AutomationRegion::get_next_ap (ap, false,
false)` (the automation-region translation unit is not part of the
excerpt) returns the automation point that follows `ap` in the region's
ordered point list, if any. -/
def nextAp : List AutoPoint → AutoPoint → Option AutoPoint
  | [], _ => none
  | [_], _ => none
  | a :: b :: rest, ap => if a = ap then some b else nextAp (b :: rest) ap

/-- Modelled from the spec: curve evaluation is "a pure function
`(ratio, opts) → [0,1]`"; the second argument is the `start_higher`
direction flag (`next.normalized_val < ap.normalized_val`) the region
evaluation passes along.  `LinearCurve` is the linear shape of the
spec's interpolation scenario: identity when ascending, reversed when
the segment starts higher. -/
def linearCurve (x : ℚ) (startHigher : Bool) : ℚ :=
  if startHigher then 1 - x else x

/-- `AutomationTrack::get_val_at_pos`
(src/gui/dsp/automation_track.cpp:410-490), parametrized by the curve
evaluation function `curve (ratio) (start_higher)`. -/
def getValAtPos (curve : ℚ → Bool → ℚ) (port : CtrlPort)
    (regions : List AutoRegion) (pos : ℤ) (normalized endsAfter : Bool) :
    ℚ :=
  match getApBeforePos regions pos endsAfter with
  | none => port.getControlValue normalized
  | some ap =>
    match getRegionBeforePos regions pos endsAfter with
    | none => 0
    | some r =>
      let localp := automationLocalPos r pos endsAfter
      match nextAp r.aps ap with
      | none => if normalized then ap.nval else ap.fval
      | some nap =>
        let prevApLower := decide (ap.nval ≤ nap.nval)
        let curNextDiff := |ap.nval - nap.nval|
        let numerator := localp - ap.pos
        let denominator := nap.pos - ap.pos
        let ratio : ℚ :=
          if numerator = 0 then 0
          else if denominator = 0 then 1
          else (numerator : ℚ) / (denominator : ℚ)
        if ratio < 0 then 0
        else
          let result := curve ratio (decide (nap.nval < ap.nval)) * curNextDiff
          let result := if prevApLower then result + ap.nval
                        else result + nap.nval
          if normalized then result else port.normalizedValToReal result

/-- C2: between two consecutive automation points surrounding `pos`
(`ap` at or before the local position, `nap` strictly after it, with
`ap` strictly earlier), `get_val_at_pos` computes the ratio
`(local_pos - ap.pos) / (next_ap.pos - ap.pos)` clamped into `[0, 1]`,
feeds it to the point's curve (whose value stays in `[0, 1]`), and
returns `lower + curve_val * |next.value - ap.value|` with `lower` the
smaller normalized point value — de-normalized through the port when
`normalized` is off. -/
theorem c2_get_val_at_pos_interpolates (curve : ℚ → Bool → ℚ)
    (port : CtrlPort) (regions : List AutoRegion) (pos : ℤ)
    (normalized : Bool) (r : AutoRegion) (ap nap : AutoPoint)
    (hcurve : ∀ x sh, 0 ≤ x → x ≤ 1 → 0 ≤ curve x sh ∧ curve x sh ≤ 1)
    (hr : getRegionBeforePos regions pos true = some r)
    (hap : getApBeforePos regions pos true = some ap)
    (hnext : nextAp r.aps ap = some nap)
    (hlo : ap.pos ≤ automationLocalPos r pos true)
    (hhi : automationLocalPos r pos true < nap.pos) :
    (0 ≤ curve (max 0 (min 1
        (((automationLocalPos r pos true - ap.pos : ℤ) : ℚ) /
          ((nap.pos - ap.pos : ℤ) : ℚ)))) (decide (nap.nval < ap.nval))
      ∧ curve (max 0 (min 1
        (((automationLocalPos r pos true - ap.pos : ℤ) : ℚ) /
          ((nap.pos - ap.pos : ℤ) : ℚ)))) (decide (nap.nval < ap.nval)) ≤ 1)
    ∧ getValAtPos curve port regions pos normalized true =
        (if normalized then
          min ap.nval nap.nval
            + curve (max 0 (min 1
                (((automationLocalPos r pos true - ap.pos : ℤ) : ℚ) /
                  ((nap.pos - ap.pos : ℤ) : ℚ))))
                (decide (nap.nval < ap.nval)) * |nap.nval - ap.nval|
        else
          port.normalizedValToReal
            (min ap.nval nap.nval
              + curve (max 0 (min 1
                  (((automationLocalPos r pos true - ap.pos : ℤ) : ℚ) /
                    ((nap.pos - ap.pos : ℤ) : ℚ))))
                  (decide (nap.nval < ap.nval)) * |nap.nval - ap.nval|)) := by
  have hlt : ap.pos < nap.pos := lt_of_le_of_lt hlo hhi
  have hdenZ : (0 : ℤ) < nap.pos - ap.pos := by omega
  have hden : (0 : ℚ) < ((nap.pos - ap.pos : ℤ) : ℚ) := by exact_mod_cast hdenZ
  have hnum : (0 : ℚ) ≤ ((automationLocalPos r pos true - ap.pos : ℤ) : ℚ) := by
    have : (0 : ℤ) ≤ automationLocalPos r pos true - ap.pos := by omega
    exact_mod_cast this
  have hnumlt :
      ((automationLocalPos r pos true - ap.pos : ℤ) : ℚ)
        < ((nap.pos - ap.pos : ℤ) : ℚ) := by
    have : automationLocalPos r pos true - ap.pos < nap.pos - ap.pos := by
      omega
    exact_mod_cast this
  have hraw0 : (0 : ℚ) ≤
      ((automationLocalPos r pos true - ap.pos : ℤ) : ℚ)
        / ((nap.pos - ap.pos : ℤ) : ℚ) :=
    div_nonneg hnum (le_of_lt hden)
  have hraw1 :
      ((automationLocalPos r pos true - ap.pos : ℤ) : ℚ)
        / ((nap.pos - ap.pos : ℤ) : ℚ) ≤ 1 :=
    le_of_lt ((div_lt_one hden).mpr hnumlt)
  have hclamp :
      max 0 (min 1
        (((automationLocalPos r pos true - ap.pos : ℤ) : ℚ)
          / ((nap.pos - ap.pos : ℤ) : ℚ))) =
      ((automationLocalPos r pos true - ap.pos : ℤ) : ℚ)
        / ((nap.pos - ap.pos : ℤ) : ℚ) := by
    rw [min_eq_right hraw1, max_eq_right hraw0]
  have hcv := hcurve
    (max 0 (min 1 (((automationLocalPos r pos true - ap.pos : ℤ) : ℚ)
      / ((nap.pos - ap.pos : ℤ) : ℚ)))) (decide (nap.nval < ap.nval))
    (le_max_left 0 _) (by rw [hclamp]; exact hraw1)
  refine ⟨hcv, ?_⟩
  have hdenne : (nap.pos - ap.pos : ℤ) ≠ 0 := by omega
  simp only [getValAtPos, hap, hr, hnext]
  rw [hclamp]
  by_cases h0 : automationLocalPos r pos true - ap.pos = 0
  · have hrz :
        ((automationLocalPos r pos true - ap.pos : ℤ) : ℚ)
          / ((nap.pos - ap.pos : ℤ) : ℚ) = 0 := by
      rw [h0]; norm_num
    rw [hrz, if_pos h0, if_neg (lt_irrefl (0 : ℚ))]
    by_cases hord : ap.nval ≤ nap.nval
    · cases normalized <;>
        simp [hord, min_eq_left hord, abs_sub_comm ap.nval nap.nval, add_comm]
    · cases normalized <;>
        simp [hord, min_eq_right (le_of_not_le hord),
          abs_sub_comm ap.nval nap.nval, add_comm]
  · rw [if_neg h0, if_neg hdenne, if_neg (not_lt.mpr hraw0)]
    by_cases hord : ap.nval ≤ nap.nval
    · cases normalized <;>
        simp [hord, min_eq_left hord, abs_sub_comm ap.nval nap.nval, add_comm]
    · cases normalized <;>
        simp [hord, min_eq_right (le_of_not_le hord),
          abs_sub_comm ap.nval nap.nval, add_comm]

/-- A two-point linear automation region used to evaluate the theorems
on concrete data: points `(0, 0.0)` and `(1000 frames, 1.0)`. -/
def autoDemoRegion : AutoRegion :=
  { startPos := 0, endPos := 2000, clipStart := 0, loopStart := 0,
    loopEnd := 100000, muted := false,
    aps := [⟨0, 0, 0⟩, ⟨1000, 1, 1⟩] }

/-- A unit-range control port for the demo region. -/
def autoDemoPort : CtrlPort :=
  { control := 0, normControl := 0, minf := 0, maxf := 1 }

/-- The linear curve shape keeps its values inside `[0, 1]` on `[0, 1]`. -/
theorem linearCurve_mem_unit (x : ℚ) (sh : Bool) (h0 : 0 ≤ x) (h1 : x ≤ 1) :
    0 ≤ linearCurve x sh ∧ linearCurve x sh ≤ 1 := by
  unfold linearCurve
  split <;> constructor <;> linarith

/-- C2 witness: the spec's interpolation scenario — linear curve, points
`(0, 0.0)` and `(1000, 1.0)` — evaluated at frame 500 through the
interpolation theorem yields `0.5`. -/
theorem c2_get_val_at_pos_interpolates_witness :
    getRegionBeforePos [autoDemoRegion] 500 true = some autoDemoRegion
    ∧ getApBeforePos [autoDemoRegion] 500 true = some ⟨0, 0, 0⟩
    ∧ nextAp autoDemoRegion.aps ⟨0, 0, 0⟩ = some ⟨1000, 1, 1⟩
    ∧ getValAtPos linearCurve autoDemoPort [autoDemoRegion] 500 true true
        = 1/2 := by
  refine ⟨rfl, rfl, rfl, ?_⟩
  have h := (c2_get_val_at_pos_interpolates linearCurve autoDemoPort
    [autoDemoRegion] 500 true autoDemoRegion ⟨0, 0, 0⟩ ⟨1000, 1, 1⟩
    linearCurve_mem_unit rfl rfl rfl (by decide) (by decide)).2
  rw [h]
  norm_num [autoDemoRegion, automationLocalPos, timelineFramesToLocal,
    linearCurve]

/-- On a list of automation points with strictly increasing positions,
scanning from the back for the first point at or before a member `ap`'s
own position finds exactly `ap` (the later points all sit strictly
after it). -/
theorem find_last_at_or_before_sorted (l : List AutoPoint) (ap : AutoPoint)
    (hmem : ap ∈ l)
    (hsort : l.Pairwise (fun a b => a.pos < b.pos)) :
    l.reverse.find? (fun b => decide (b.pos ≤ ap.pos)) = some ap := by
  induction l using List.reverseRecOn with
  | nil => cases hmem
  | append_singleton l' b ih =>
    have hpair := List.pairwise_append.mp hsort
    rw [List.reverse_append, List.reverse_singleton, List.singleton_append]
    rcases List.mem_append.mp hmem with h | h
    · have hlt : ap.pos < b.pos :=
        hpair.2.2 ap h b (List.mem_singleton_self b)
      rw [List.find?_cons_of_neg _ (by simpa using not_le.mpr hlt)]
      exact ih h hpair.1
    · have hb : ap = b := by simpa using h
      subst hb
      rw [List.find?_cons_of_pos _ (by simp)]

/-- C7: inside an unmuted automation region whose points have strictly
increasing local positions below the loop end (taking `clip_start = 0`,
so that a timeline position maps to the plain local offset), evaluating
the automation value exactly at a point's position returns exactly that
point's normalized value. -/
theorem c7_val_at_ap_pos_is_ap_val (port : CtrlPort) (r : AutoRegion)
    (ap : AutoPoint) (hmem : ap ∈ r.aps)
    (hsort : r.aps.Pairwise (fun a b => a.pos < b.pos))
    (hmut : r.muted = false) (hclip : r.clipStart = 0)
    (hloop : ∀ b ∈ r.aps, b.pos < r.loopEnd)
    (hlo : 0 ≤ ap.pos) (hhi : r.startPos + ap.pos ≤ r.endPos) :
    getValAtPos linearCurve port [r] (r.startPos + ap.pos) true true
      = ap.nval := by
  have hr : getRegionBeforePos [r] (r.startPos + ap.pos) true = some r := by
    simp [getRegionBeforePos]
    constructor
    · omega
    · omega
  have hlocal : automationLocalPos r (r.startPos + ap.pos) true = ap.pos := by
    have hltl : r.startPos + ap.pos - r.startPos + r.clipStart
        < r.loopEnd := by
      have := hloop ap hmem
      omega
    simp only [automationLocalPos, timelineFramesToLocal, Bool.not_true,
      Bool.false_and, Bool.false_eq_true, if_false, eq_self_iff_true,
      if_true]
    rw [if_pos hltl]
    omega
  have hap : getApBeforePos [r] (r.startPos + ap.pos) true = some ap := by
    simp only [getApBeforePos, hr, hmut, Bool.false_eq_true, if_false,
      hlocal]
    exact find_last_at_or_before_sorted r.aps ap hmem hsort
  simp only [getValAtPos, hap, hr, hlocal]
  cases hn : nextAp r.aps ap with
  | none => simp
  | some nap =>
    by_cases hord : ap.nval ≤ nap.nval
    · have hsh : ¬ (nap.nval < ap.nval) := not_lt.mpr hord
      simp [sub_self, lt_self_iff_false, linearCurve, hsh, hord]
    · have hlt : nap.nval < ap.nval := lt_of_not_le hord
      have habs : |ap.nval - nap.nval| = ap.nval - nap.nval :=
        abs_of_pos (by linarith)
      simp [sub_self, lt_self_iff_false, linearCurve, hlt, hord, habs,
        sub_add_cancel]

/-- C7 witness: in the demo region, evaluating at the second point's
position (frame 1000) returns that point's value 1. -/
theorem c7_val_at_ap_pos_is_ap_val_witness :
    (⟨1000, 1, 1⟩ : AutoPoint) ∈ autoDemoRegion.aps
    ∧ getValAtPos linearCurve autoDemoPort [autoDemoRegion]
        (autoDemoRegion.startPos + (⟨1000, 1, 1⟩ : AutoPoint).pos) true true
        = (⟨1000, 1, 1⟩ : AutoPoint).nval :=
  ⟨by decide,
   c7_val_at_ap_pos_is_ap_val autoDemoPort autoDemoRegion ⟨1000, 1, 1⟩
     (by decide) (by decide) rfl rfl (by decide) (by decide) (by decide)⟩

/-! ## Engine event queue (`inc/dsp/engine.h`) -/

/-- `AudioEngineEventType`. -/
inductive EngEventKind where
  | BufferSizeChange
  | SampleRateChange
  deriving DecidableEq, Repr

/-- `AudioEngine::Event`: event type plus its integer and float
arguments (`uint_arg_`, `float_arg_`; the debug-only fields are
omitted). -/
structure EngEvent where
  kind : EngEventKind
  uintArg : ℕ
  floatArg : ℚ
  deriving DecidableEq, Repr

/-- `constexpr int ENGINE_MAX_EVENTS = 128` (inc/dsp/engine.h:88). -/
def ENGINE_MAX_EVENTS : ℕ := 128

/-- Modelled from the spec: the engine's cross-thread event queue
(`MPMCQueue<Event *> ev_queue_{ ENGINE_MAX_EVENTS }`; the queue
implementation is not part of the excerpt) is a FIFO bounded by
`ENGINE_MAX_EVENTS`; the head of `items` is the oldest element. -/
structure EngEventQueue where
  items : List EngEvent
  deriving DecidableEq, Repr

/-- Modelled from the spec: pushing into the bounded queue succeeds
exactly while there is room. -/
def EngEventQueue.push (q : EngEventQueue) (e : EngEvent) :
    Option EngEventQueue :=
  if q.items.length < ENGINE_MAX_EVENTS then some ⟨q.items ++ [e]⟩ else none

/-- Push a whole sequence of events, failing if any push overflows. -/
def pushAll (q : EngEventQueue) : List EngEvent → Option EngEventQueue
  | [] => some q
  | e :: es =>
    match q.push e with
    | none => none
    | some q' => pushAll q' es

/-- Modelled from the spec: the dedup step of
`clean_duplicate_events_and_copy` "deduplicating identical consecutive
events" keeps one representative of every run of equal events. -/
def dedupConsecutive : List EngEvent → List EngEvent
  | [] => []
  | [e] => [e]
  | a :: b :: rest =>
    if a = b then dedupConsecutive (b :: rest)
    else a :: dedupConsecutive (b :: rest)

/-- Modelled from the spec: the non-realtime event pump dequeues
everything, deduplicates, and handles the result; the queue is left
empty. -/
def pumpEvents (q : EngEventQueue) : List EngEvent × EngEventQueue :=
  (dedupConsecutive q.items, ⟨[]⟩)

/-- Consecutive dedup never grows the list. -/
theorem dedupConsecutive_length_le :
    ∀ l : List EngEvent, (dedupConsecutive l).length ≤ l.length := by
  intro l
  induction l with
  | nil => simp [dedupConsecutive]
  | cons a t ih =>
    cases t with
    | nil => simp [dedupConsecutive]
    | cons b rest =>
      by_cases hab : a = b
      · simp only [dedupConsecutive, hab, if_pos rfl]
        exact le_trans ih (by simp)
      · simp only [dedupConsecutive, if_neg hab, List.length_cons]
        exact Nat.succ_le_succ ih

/-- Consecutive dedup loses no distinct event: every pushed event value
still occurs in the deduplicated list. -/
theorem mem_dedupConsecutive (e : EngEvent) :
    ∀ l : List EngEvent, e ∈ l → e ∈ dedupConsecutive l := by
  intro l
  induction l with
  | nil => intro h; cases h
  | cons a t ih =>
    intro hmem
    cases t with
    | nil => simpa [dedupConsecutive] using hmem
    | cons b rest =>
      rcases List.mem_cons.mp hmem with he | he
      · by_cases hab : a = b
        · subst he
          subst hab
          simp only [dedupConsecutive, if_pos rfl]
          exact ih (List.mem_cons_self _ _)
        · subst he
          simp [dedupConsecutive, hab]
      · by_cases hab : a = b
        · simp only [dedupConsecutive, hab, if_pos rfl]
          exact ih he
        · simp only [dedupConsecutive, if_neg hab]
          exact List.mem_cons_of_mem a (ih he)

/-- Pushing a sequence that fits in the remaining room appends it
in FIFO order. -/
theorem pushAll_fits :
    ∀ (es : List EngEvent) (q : EngEventQueue),
      q.items.length + es.length ≤ ENGINE_MAX_EVENTS →
      pushAll q es = some ⟨q.items ++ es⟩ := by
  intro es
  induction es with
  | nil => intro q h; simp [pushAll]
  | cons e es ih =>
    intro q h
    have hlt : q.items.length < ENGINE_MAX_EVENTS := by
      simp only [List.length_cons] at h
      omega
    simp only [pushAll, EngEventQueue.push, if_pos hlt]
    have hrec := ih ⟨q.items ++ [e]⟩ (by simp at h ⊢; omega)
    simpa [List.append_assoc] using hrec

/-- C3: after pushing any `N ≤ 128` events into the empty queue, every
push succeeds, and the pump drains the whole queue: it handles exactly
the consecutive-deduplicated sequence (so at most `N` events), no
distinct event value is lost, and the queue is left empty. -/
theorem c3_event_queue_drains (events : List EngEvent)
    (h : events.length ≤ ENGINE_MAX_EVENTS) :
    pushAll ⟨[]⟩ events = some ⟨events⟩
    ∧ (pumpEvents ⟨events⟩).1 = dedupConsecutive events
    ∧ (pumpEvents ⟨events⟩).1.length ≤ events.length
    ∧ (∀ e ∈ events, e ∈ (pumpEvents ⟨events⟩).1)
    ∧ (pumpEvents ⟨events⟩).2.items = [] := by
  refine ⟨?_, rfl, dedupConsecutive_length_le events,
    fun e he => mem_dedupConsecutive e events he, rfl⟩
  have := pushAll_fits events ⟨[]⟩ (by simpa using h)
  simpa using this

/-- C3 witness: three events with a consecutive duplicate — the pump
handles both distinct values and drops exactly the duplicate. -/
theorem c3_event_queue_drains_witness :
    ([⟨EngEventKind.BufferSizeChange, 512, 0⟩,
      ⟨EngEventKind.BufferSizeChange, 512, 0⟩,
      ⟨EngEventKind.SampleRateChange, 48000, 0⟩] : List EngEvent).length
        ≤ ENGINE_MAX_EVENTS
    ∧ pushAll ⟨[]⟩
        [⟨EngEventKind.BufferSizeChange, 512, 0⟩,
         ⟨EngEventKind.BufferSizeChange, 512, 0⟩,
         ⟨EngEventKind.SampleRateChange, 48000, 0⟩] =
        some ⟨[⟨EngEventKind.BufferSizeChange, 512, 0⟩,
               ⟨EngEventKind.BufferSizeChange, 512, 0⟩,
               ⟨EngEventKind.SampleRateChange, 48000, 0⟩]⟩
    ∧ (pumpEvents ⟨[⟨EngEventKind.BufferSizeChange, 512, 0⟩,
         ⟨EngEventKind.BufferSizeChange, 512, 0⟩,
         ⟨EngEventKind.SampleRateChange, 48000, 0⟩]⟩).1 =
        [⟨EngEventKind.BufferSizeChange, 512, 0⟩,
         ⟨EngEventKind.SampleRateChange, 48000, 0⟩] := by
  refine ⟨by decide, ?_, by decide⟩
  exact (c3_event_queue_drains
    [⟨EngEventKind.BufferSizeChange, 512, 0⟩,
     ⟨EngEventKind.BufferSizeChange, 512, 0⟩,
     ⟨EngEventKind.SampleRateChange, 48000, 0⟩] (by decide)).1

/-! ## Implied solo (`src/gui/dsp/fader.cpp:438-497`)

The routing hierarchy is modelled as a forest of channel tracks: a node
carries the track's solo flag (its channel fader's solo port) and the
`children_` of its group target; a fader is evaluated against the list
of its ancestors' solo flags (`channel_->get_output_track ()` chased
upward, nearest first).  `Track::get_implied_soloed`, which the child
loop calls, delegates to the track's channel fader (channel faders are
non-passthrough audio/MIDI faders, so the type/passthrough guards pass
for every node of the forest). -/

/-- A (channel) track with its solo flag and its group children. -/
inductive TrackTree where
  | node (soloed : Bool) (children : List TrackTree)

/-- The track's solo flag. -/
def TrackTree.soloed : TrackTree → Bool
  | .node s _ => s

/-- The track's group children. -/
def TrackTree.children : TrackTree → List TrackTree
  | .node _ cs => cs

mutual
/-- `Fader::get_implied_soloed` on the forest model: `false` when the
fader itself is soloed; otherwise true when some ancestor output track
is soloed (the parent walk checks `get_soloed` only) or the child loop
finds a soloed or implied-soloed child. -/
def impliedSoloedTrack (anc : List Bool) : TrackTree → Bool
  | .node s cs =>
    if s then false
    else anc.any id || impliedChildAny (s :: anc) cs

/-- The `for (child_id : children_)` loop:
`child->get_soloed () || child->get_implied_soloed ()`, where the
child's own ancestor chain starts with the current track. -/
def impliedChildAny (anc : List Bool) : List TrackTree → Bool
  | [] => false
  | c :: cs => (c.soloed || impliedSoloedTrack anc c) || impliedChildAny anc cs
end

mutual
/-- Whether any track of the subtree (the root included) is soloed. -/
def subtreeAnySoloed : TrackTree → Bool
  | .node s cs => s || childAnySoloed cs

/-- Whether any track in any of the subtrees is soloed. -/
def childAnySoloed : List TrackTree → Bool
  | [] => false
  | c :: cs => subtreeAnySoloed c || childAnySoloed cs
end

mutual
/-- Normal form of the implied-solo recursion: a track is
implied-soloed exactly when it is not itself soloed and either an
ancestor is soloed or some proper descendant is soloed. -/
theorem impliedSoloedTrack_eq (anc : List Bool) (t : TrackTree) :
    impliedSoloedTrack anc t
      = (!t.soloed && (anc.any id || childAnySoloed t.children)) :=
  match t with
  | .node s cs => by
    rw [impliedSoloedTrack]
    cases s with
    | true => simp [TrackTree.soloed]
    | false =>
      rw [impliedChildAny_eq (false :: anc) cs]
      simp only [TrackTree.soloed, TrackTree.children, Bool.not_false,
        Bool.true_and, List.any_cons, id, Bool.false_or]
      cases hA : anc.any id <;> cases hC : childAnySoloed cs <;>
        cases cs <;> simp [List.isEmpty]

/-- Unfolding the child loop: it reports a hit exactly when the
ancestor chain has a soloed entry (and there is at least one child to
start the recursion), or some descendant inside the children is
soloed. -/
theorem impliedChildAny_eq (anc : List Bool) (cs : List TrackTree) :
    impliedChildAny anc cs
      = ((!cs.isEmpty && anc.any id) || childAnySoloed cs) :=
  match cs with
  | [] => by simp [impliedChildAny, childAnySoloed, List.isEmpty]
  | c :: cs' => by
    rw [impliedChildAny, impliedChildAny_eq anc cs',
      impliedSoloedTrack_eq anc c, childAnySoloed]
    have hsub : subtreeAnySoloed c = (c.soloed || childAnySoloed c.children) := by
      cases c with
      | node s k => rw [subtreeAnySoloed]; simp [TrackTree.soloed, TrackTree.children]
    rw [hsub]
    cases hs : c.soloed <;> cases hA : anc.any id <;>
      cases hc : childAnySoloed c.children <;>
      cases hcs : childAnySoloed cs' <;> cases cs' <;> simp [List.isEmpty]
end

/-- C6 (counterexample): group `A` (not soloed) with children `B` (not
soloed, no children) and `D` (soloed).  `B`'s ancestor `A` IS
implied-soloed (its child `D` is soloed), so the claim's
characterization — "some ancestor is soloed or implied-soloed" — makes
`B` implied-soloed; the code returns `false` for `B`, because the
parent walk checks `get_soloed` only. -/
theorem c6_implied_soloed_claim_false_on_sibling_solo :
    impliedSoloedTrack [false] (TrackTree.node false []) = false
    ∧ ((TrackTree.node false
          [TrackTree.node false [], TrackTree.node true []]).soloed
        || impliedSoloedTrack []
          (TrackTree.node false
            [TrackTree.node false [], TrackTree.node true []])) = true := by
  constructor
  · rw [impliedSoloedTrack, impliedChildAny]
    rfl
  · rw [TrackTree.soloed, impliedSoloedTrack, impliedChildAny,
      impliedSoloedTrack, impliedChildAny, impliedChildAny,
      impliedSoloedTrack, impliedChildAny]
    rfl

/-- C6 (amended): a channel fader is implied-soloed exactly when it is
not itself soloed and either some ancestor output track is soloed
(an ancestor that is merely implied-soloed does not count) or some
proper descendant group child is soloed.  In particular, in the claim's
scenario — `B` un-soloed with a soloed ancestor — `B` reports
`implied_soloed = true` and its (unmuted, non-bounce, non-master) fader
is not effectively muted by the solo logic. -/
theorem c6_implied_soloed_amended (anc : List Bool) (t : TrackTree) :
    impliedSoloedTrack anc t
      = (!t.soloed && (anc.any id || childAnySoloed t.children))
    ∧ (t.soloed = false → anc.any id = true →
        impliedSoloedTrack anc t = true)
    ∧ (∀ hasS tb : Bool, t.soloed = false → anc.any id = true →
        effectivelyMuted
          { passthrough := false, ftype := FaderType.AudioChannel,
            muted := false, soloed := t.soloed,
            impliedSoloed := impliedSoloedTrack anc t,
            hasSoloed := hasS, bounceOn := false, trackIsMaster := false,
            trackBounce := tb } = false) := by
  refine ⟨impliedSoloedTrack_eq anc t, ?_, ?_⟩
  · intro hs ha
    rw [impliedSoloedTrack_eq anc t, hs, ha]
    simp
  · intro hasS tb hs ha
    rw [impliedSoloedTrack_eq anc t, hs, ha]
    simp [effectivelyMuted, FaderMuteCtx.isChannelFader,
      FaderMuteCtx.trackPtrSet]

/-- C6 witness: `B` (no children, not soloed) under a soloed parent `A`
reports implied solo and is not silenced. -/
theorem c6_implied_soloed_amended_witness :
    ((TrackTree.node false [] : TrackTree).soloed = false
      ∧ ([true] : List Bool).any id = true)
    ∧ impliedSoloedTrack [true] (TrackTree.node false []) = true
    ∧ effectivelyMuted
        { passthrough := false, ftype := FaderType.AudioChannel,
          muted := false, soloed := (TrackTree.node false [] : TrackTree).soloed,
          impliedSoloed := impliedSoloedTrack [true] (TrackTree.node false []),
          hasSoloed := true, bounceOn := false, trackIsMaster := false,
          trackBounce := false } = false := by
  have h := c6_implied_soloed_amended [true] (TrackTree.node false [])
  exact ⟨⟨rfl, rfl⟩, h.2.1 rfl rfl, h.2.2 true false rfl rfl⟩

/-! ## Channel plugin-strip wiring (`src/gui/backend/channel.cpp:732-929`)

The strip is `midi_fx_[STRIP_SIZE]`, `instrument_`, `inserts_[STRIP_SIZE]`,
each slot `Option`ally holding a plugin id.  The `connect_to_*` /
`disconnect_from_*` port plumbing of the four `connect_*` helpers
(src/gui/backend/channel.cpp:183-290) is abstracted to the chain edges
each helper establishes around the plugin. -/

/-- `zrythm::dsp::PluginSlotType` (the slot types `connect_plugins`
iterates). -/
inductive PluginSlotType where
  | MidiFx
  | Instrument
  | Insert
  deriving DecidableEq, Repr

/-- `STRIP_SIZE = 9` (spec constant; the arrays have this length). -/
def STRIP_SIZE : ℕ := 9

/-- The channel's plugin strip. -/
structure ChannelPlugins where
  midiFx : List (Option ℕ)
  instrument : Option ℕ
  inserts : List (Option ℕ)
  deriving DecidableEq, Repr

/-- The previous-plugin resolution of `connect_plugins`: the Instrument
scans all of `midi_fx_` from the back; a MidiFx or Insert slot scans its
own array backwards from `slot - 1`; an Insert with no preceding insert
falls back to the instrument, else to the last occupied MidiFx slot.
(The MidiFx case has no fallback.) -/
def prevPluginId (ch : ChannelPlugins) : PluginSlotType → ℕ → Option ℕ
  | PluginSlotType.Instrument, _ => ch.midiFx.reverse.findSome? id
  | PluginSlotType.MidiFx, slot =>
    ((ch.midiFx.take slot).reverse).findSome? id
  | PluginSlotType.Insert, slot =>
    match ((ch.inserts.take slot).reverse).findSome? id with
    | some p => some p
    | none =>
      match ch.instrument with
      | some i => some i
      | none => ch.midiFx.reverse.findSome? id

/-- The next-plugin resolution of `connect_plugins`: an Insert scans
`inserts_` forward from `slot + 1`; a MidiFx scans `midi_fx_` forward
from `slot + 1` and falls back to the instrument, else to the first
occupied insert; the Instrument scans `midi_fx_` from index 0 (that is
the array `connect_plugins` installs for it) with no fallback. -/
def nextPluginId (ch : ChannelPlugins) : PluginSlotType → ℕ → Option ℕ
  | PluginSlotType.Instrument, _ => ch.midiFx.findSome? id
  | PluginSlotType.Insert, slot => (ch.inserts.drop (slot + 1)).findSome? id
  | PluginSlotType.MidiFx, slot =>
    match (ch.midiFx.drop (slot + 1)).findSome? id with
    | some p => some p
    | none =>
      match ch.instrument with
      | some i => some i
      | none => ch.inserts.findSome? id

/-- Nodes of the channel strip chain. -/
inductive StripNode where
  | trackProcessor
  | prefader
  | plugin (id : ℕ)
  deriving DecidableEq, Repr

/-- The chain edges `connect_plugins` establishes around an occupied
slot, dispatching on the resolved neighbours exactly as the four
`connect_*` helpers do: `connect_no_prev_no_next` wires
TrackProcessor → plugin → Prefader, `connect_no_prev_next` wires
TrackProcessor → plugin → next, `connect_prev_no_next` wires
prev → plugin → Prefader, `connect_prev_next` wires
prev → plugin → next. -/
def wiringEdges (ch : ChannelPlugins) (st : PluginSlotType) (slot : ℕ)
    (pl : ℕ) : List (StripNode × StripNode) :=
  match prevPluginId ch st slot, nextPluginId ch st slot with
  | none, none =>
    [(StripNode.trackProcessor, StripNode.plugin pl),
     (StripNode.plugin pl, StripNode.prefader)]
  | none, some n =>
    [(StripNode.trackProcessor, StripNode.plugin pl),
     (StripNode.plugin pl, StripNode.plugin n)]
  | some p, none =>
    [(StripNode.plugin p, StripNode.plugin pl),
     (StripNode.plugin pl, StripNode.prefader)]
  | some p, some n =>
    [(StripNode.plugin p, StripNode.plugin pl),
     (StripNode.plugin pl, StripNode.plugin n)]

/-- `findSome? id` misses a list of empty slots. -/
theorem findSome?_id_none (l : List (Option ℕ)) (h : ∀ x ∈ l, x = none) :
    l.findSome? id = none := by
  induction l with
  | nil => rfl
  | cons a t ih =>
    have ha := h a (List.mem_cons_self _ _)
    subst ha
    rw [List.findSome?_cons]
    exact ih fun x hx => h x (List.mem_cons_of_mem _ hx)

/-- Scanning from the back, the occupied slot after which only empty
slots follow is the one found. -/
theorem findSome?_id_reverse_last (l₁ l₂ : List (Option ℕ)) (p : ℕ)
    (h : ∀ x ∈ l₂, x = none) :
    ((l₁ ++ some p :: l₂).reverse).findSome? id = some p := by
  rw [List.reverse_append, List.reverse_cons, List.append_assoc,
    List.findSome?_append,
    findSome?_id_none _ (fun x hx => h x (List.mem_reverse.mp hx))]
  rfl

/-- Scanning forward, the occupied slot before which all slots are
empty is the one found. -/
theorem findSome?_id_first (l₁ l₂ : List (Option ℕ)) (p : ℕ)
    (h : ∀ x ∈ l₁, x = none) :
    (l₁ ++ some p :: l₂).findSome? id = some p := by
  rw [List.findSome?_append, findSome?_id_none _ h]
  rfl

/-- C8: `connect_plugins` wires an occupied slot according to its
resolved neighbours — no prev/no next gives
TrackProcessor → Plugin → Prefader, prev only gives
Previous → Plugin → Prefader, next only gives
TrackProcessor → Plugin → Next, both give Previous → Plugin → Next —
and the neighbour resolution behaves as claimed: a MidiFx slot searches
for its predecessor only inside `midi_fx_`; an Insert with no preceding
insert takes the Instrument (or, absent one, the last occupied MidiFx)
as predecessor; the Instrument takes the last occupied MidiFx as
predecessor; and a MidiFx with no following MidiFx takes the Instrument
(or, absent one, the first occupied Insert) as successor. -/
theorem c8_connect_plugins_wiring (ch : ChannelPlugins)
    (st : PluginSlotType) (slot pl : ℕ) :
    ((prevPluginId ch st slot = none → nextPluginId ch st slot = none →
        wiringEdges ch st slot pl =
          [(StripNode.trackProcessor, StripNode.plugin pl),
           (StripNode.plugin pl, StripNode.prefader)])
      ∧ (∀ p, prevPluginId ch st slot = some p →
          nextPluginId ch st slot = none →
          wiringEdges ch st slot pl =
            [(StripNode.plugin p, StripNode.plugin pl),
             (StripNode.plugin pl, StripNode.prefader)])
      ∧ (∀ n, prevPluginId ch st slot = none →
          nextPluginId ch st slot = some n →
          wiringEdges ch st slot pl =
            [(StripNode.trackProcessor, StripNode.plugin pl),
             (StripNode.plugin pl, StripNode.plugin n)])
      ∧ (∀ p n, prevPluginId ch st slot = some p →
          nextPluginId ch st slot = some n →
          wiringEdges ch st slot pl =
            [(StripNode.plugin p, StripNode.plugin pl),
             (StripNode.plugin pl, StripNode.plugin n)]))
    ∧ ((∀ x ∈ ch.midiFx.take slot, x = none) →
        prevPluginId ch PluginSlotType.MidiFx slot = none)
    ∧ ((∀ x ∈ ch.inserts.take slot, x = none) →
        prevPluginId ch PluginSlotType.Insert slot =
          (match ch.instrument with
           | some i => some i
           | none => ch.midiFx.reverse.findSome? id))
    ∧ (∀ p (l₁ l₂ : List (Option ℕ)), ch.midiFx = l₁ ++ some p :: l₂ →
        (∀ x ∈ l₂, x = none) →
        prevPluginId ch PluginSlotType.Instrument slot = some p)
    ∧ ((∀ x ∈ ch.midiFx.drop (slot + 1), x = none) →
        nextPluginId ch PluginSlotType.MidiFx slot =
          (match ch.instrument with
           | some i => some i
           | none => ch.inserts.findSome? id))
    ∧ (∀ p (l₁ l₂ : List (Option ℕ)), ch.instrument = none →
        ch.inserts = l₁ ++ some p :: l₂ → (∀ x ∈ l₁, x = none) →
        (∀ x ∈ ch.midiFx.drop (slot + 1), x = none) →
        nextPluginId ch PluginSlotType.MidiFx slot = some p) := by
  refine ⟨⟨?_, ?_, ?_, ?_⟩, ?_, ?_, ?_, ?_, ?_⟩
  · intro h1 h2
    simp [wiringEdges, h1, h2]
  · intro p h1 h2
    simp [wiringEdges, h1, h2]
  · intro n h1 h2
    simp [wiringEdges, h1, h2]
  · intro p n h1 h2
    simp [wiringEdges, h1, h2]
  · intro hempty
    simp only [prevPluginId]
    exact findSome?_id_none _ fun x hx =>
      hempty x (List.mem_reverse.mp hx)
  · intro hempty
    have hbase : ((ch.inserts.take slot).reverse).findSome? id = none :=
      findSome?_id_none _ fun x hx => hempty x (List.mem_reverse.mp hx)
    simp only [prevPluginId, hbase]
  · intro p l₁ l₂ hmf hnone
    simp only [prevPluginId, hmf]
    exact findSome?_id_reverse_last l₁ l₂ p hnone
  · intro hempty
    have hbase : (ch.midiFx.drop (slot + 1)).findSome? id = none :=
      findSome?_id_none _ hempty
    simp only [nextPluginId, hbase]
  · intro p l₁ l₂ hinstr hins hnone hempty
    have hbase : (ch.midiFx.drop (slot + 1)).findSome? id = none :=
      findSome?_id_none _ hempty
    simp only [nextPluginId, hbase, hinstr, hins]
    exact findSome?_id_first l₁ l₂ p hnone

/-- A strip with one MidiFx in slot 0, an instrument, and one insert in
slot 1, used to evaluate the wiring theorem on concrete data. -/
def demoStrip : ChannelPlugins :=
  { midiFx := [some 1, none], instrument := some 5,
    inserts := [none, some 7] }

/-- C8 witness: in `demoStrip` the insert at slot 0 has no preceding
insert and resolves the instrument as its predecessor. -/
theorem c8_connect_plugins_wiring_witness :
    (∀ x ∈ demoStrip.inserts.take 0, x = none)
    ∧ prevPluginId demoStrip PluginSlotType.Insert 0 = some 5 := by
  refine ⟨by simp [demoStrip], ?_⟩
  have h := (c8_connect_plugins_wiring demoStrip
    PluginSlotType.Insert 0 0).2.2.1
  rw [h (by simp [demoStrip])]
  rfl

/-! ## Fader audio processing (`src/gui/dsp/fader.cpp:848-1139`)

Buffers are the processed slice `[local_offset, local_offset + nframes)`
of the stereo port buffers.  The `utils::float_ranges` helpers whose
bodies are not in the excerpt (`linear_fade_in_from`,
`linear_fade_out_to`, `make_mono`, `calculate_balance_control`) are
modelled from the spec. -/

/-- Index-aware map, used to express the sample-position-dependent fade
gains. -/
def mapIdxFrom (f : ℕ → ℚ → ℚ) : ℕ → List ℚ → List ℚ
  | _, [] => []
  | i, x :: xs => f i x :: mapIdxFrom f (i + 1) xs

@[simp] theorem mapIdxFrom_length (f : ℕ → ℚ → ℚ) :
    ∀ (i : ℕ) (l : List ℚ), (mapIdxFrom f i l).length = l.length := by
  intro i l
  induction l generalizing i with
  | nil => rfl
  | cons x xs ih => simp [mapIdxFrom, ih]

theorem mapIdxFrom_getElem (f : ℕ → ℚ → ℚ) :
    ∀ (i : ℕ) (l : List ℚ) (j : ℕ) (h : j < l.length),
      (mapIdxFrom f i l).get ⟨j, by simpa using h⟩ = f (i + j) (l.get ⟨j, h⟩) := by
  intro i l
  induction l generalizing i with
  | nil => intro j h; cases h
  | cons x xs ih =>
    intro j h
    cases j with
    | zero => simp [mapIdxFrom]
    | succ j' =>
      have hj : j' < xs.length := by
        simpa using Nat.lt_of_succ_lt_succ h
      have hrec := ih (i + 1) j' hj
      simp only [mapIdxFrom, List.get_cons_succ]
      rw [hrec]
      congr 1
      omega

theorem mem_mapIdxFrom (f : ℕ → ℚ → ℚ) :
    ∀ (i : ℕ) (l : List ℚ) (x : ℚ), x ∈ mapIdxFrom f i l →
      ∃ (j : ℕ) (y : ℚ), y ∈ l ∧ x = f j y := by
  intro i l
  induction l generalizing i with
  | nil => intro x hx; cases hx
  | cons a t ih =>
    intro x hx
    rcases List.mem_cons.mp hx with h | h
    · exact ⟨i, a, List.mem_cons_self _ _, h⟩
    · obtain ⟨j, y, hy, hxy⟩ := ih (i + 1) x h
      exact ⟨j, y, List.mem_cons_of_mem _ hy, hxy⟩

/-- `dsp_mul_k2`: `dst[i] = dst[i] * k`. -/
def fr_mul_k2 (k : ℚ) (l : List ℚ) : List ℚ :=
  l.map (· * k)

/-- `dsp_fill`: fill with a constant. -/
def fr_fill (v : ℚ) (l : List ℚ) : List ℚ :=
  l.map fun _ => v

/-- `dsp_clip`: `std::clamp (x, minf, maxf)` on each sample. -/
def fr_clip (lo hi : ℚ) (l : List ℚ) : List ℚ :=
  l.map fun x => max lo (min x hi)

/-- `dsp_mix_product`: `dest[i] = dest[i] + src[i] * k`. -/
def fr_mix_product (dest src : List ℚ) (k : ℚ) : List ℚ :=
  List.zipWith (fun d s => d + s * k) dest src

/-- Modelled from the spec: `dsp_make_mono` with `equal_power = false`
averages the channels into both ("equal amplitude sum = (L+R)/2"). -/
def fr_make_mono (l r : List ℚ) : List ℚ × List ℚ :=
  (List.zipWith (fun a b => (a + b) / 2) l r,
   List.zipWith (fun a b => (a + b) / 2) l r)

/-- Modelled from the spec: the gain of the linear fade-in at fade
position `p` of `total`: from `mute_amp` at 0 up to 1 at `total` (and 1
once the fade interval is over). -/
def fadeInGain (total : ℤ) (m : ℚ) (p : ℤ) : ℚ :=
  if total ≤ p then 1 else m + (1 - m) * ((p : ℚ) / (total : ℚ))

/-- Modelled from the spec: the gain of the linear fade-out at fade
position `p` of `total`: from 1 at 0 down to `mute_amp` at `total`. -/
def fadeOutGain (total : ℤ) (m : ℚ) (p : ℤ) : ℚ :=
  if total ≤ p then m else 1 - ((p : ℚ) / (total : ℚ)) * (1 - m)

/-- Modelled from the spec: `dsp_linear_fade_in_from` multiplies the
whole block by the fade-in gain, starting at fade position
`start_offset`. -/
def linearFadeInFrom (startOffset total : ℤ) (m : ℚ) (l : List ℚ) :
    List ℚ :=
  mapIdxFrom (fun i x => x * fadeInGain total m (startOffset + i)) 0 l

/-- Modelled from the spec: `dsp_linear_fade_out_to` multiplies the
first `n` samples by the fade-out gain, starting at fade position
`start_offset`; the rest of the block is left alone. -/
def linearFadeOutTo (startOffset total : ℤ) (m : ℚ) (n : ℕ)
    (l : List ℚ) : List ℚ :=
  mapIdxFrom
    (fun i x => if i < n then x * fadeOutGain total m (startOffset + i) else x)
    0 l

/-- Apply an operation to the tail of a buffer starting at sample `n`
(an `&buf[offset + n]` pointer). -/
def applyFrom (n : ℕ) (f : List ℚ → List ℚ) (l : List ℚ) : List ℚ :=
  l.take n ++ f (l.drop n)

/-- Multiply the first `n` samples by `k` (an `&buf[offset]` pointer
with count `n`). -/
def mulPrefixK (k : ℚ) (n : ℕ) (l : List ℚ) : List ℚ :=
  fr_mul_k2 k (l.take n) ++ l.drop n

/-- Modelled from the spec: `dsp::calculate_balance_control` with the
linear algorithm; `balance = 0.5` gives unit gain on both sides. -/
def balanceControlLinear (pan : ℚ) : ℚ × ℚ :=
  (min 1 ((1 - pan) * 2), min 1 (pan * 2))

/-- `Fader::fade_frames_for_type` (src/gui/dsp/fader.cpp:766-772),
parametrized by the two `FADER_DEFAULT_FADE_FRAMES` constants (their
numeric values live outside the excerpt). -/
def fadeFramesForType (long short : ℕ) (t : FaderType) : ℕ :=
  if t = FaderType.Monitor then long else short

/-- The per-block fade/mute state of a fader: `fade_in_samples_`,
`fade_out_samples_`, `fading_out_`, `was_effectively_muted_`. -/
structure FaderFadeState where
  fadeInSamples : ℤ
  fadeOutSamples : ℤ
  fadingOut : Bool
  wasEffectivelyMuted : Bool
  deriving DecidableEq, Repr

/-- Everything `Fader::process_block` reads while processing an audio
block: the mute context, the control ports, the control-room and engine
values, the listened tracks' post-fader buses, and the two fade-length
constants (whose numeric values live outside the excerpt). -/
structure FaderAudioCtx where
  mctx : FaderMuteCtx
  /-- `get_amp_port ().get_control_value (false)`. -/
  amp : ℚ
  /-- `get_balance_port ().get_control_value (false)`. -/
  balance : ℚ
  /-- `get_mono_compat_enabled_port ().is_toggled ()`. -/
  monoCompat : Bool
  /-- `get_swap_phase_port ().is_toggled ()`. -/
  swapPhase : Bool
  /-- `CONTROL_ROOM->mute_fader_->get_amp ()`. -/
  muteFaderAmp : ℚ
  /-- `AUDIO_ENGINE->denormal_prevention_val_`. -/
  denormalPreventionVal : ℚ
  /-- `CONTROL_ROOM->dim_fader_->get_amp ()`. -/
  dimAmp : ℚ
  /-- `CONTROL_ROOM->listen_fader_->get_amp ()`. -/
  listenAmp : ℚ
  /-- `CONTROL_ROOM->dim_output_`. -/
  dimOutput : Bool
  /-- `TRACKLIST->get_track_span ().has_listened ()`. -/
  hasListened : Bool
  /-- The listened audio tracks' post-fader stereo outputs. -/
  listened : List (List ℚ × List ℚ)
  /-- `FADER_DEFAULT_FADE_FRAMES`. -/
  defaultFadeFramesLong : ℕ
  /-- `FADER_DEFAULT_FADE_FRAMES_SHORT`. -/
  defaultFadeFramesShort : ℕ

/-- The monitor fader's listen stage: dim the main signal, then mix in
each listened track's post-fader bus scaled by the listen amp. -/
def monitorMix (ctx : FaderAudioCtx) (o : List ℚ × List ℚ) :
    List ℚ × List ℚ :=
  if ctx.hasListened then
    ctx.listened.foldl
      (fun acc pr =>
        (fr_mix_product acc.1 pr.1 ctx.listenAmp,
         fr_mix_product acc.2 pr.2 ctx.listenAmp))
      (fr_mul_k2 ctx.dimAmp o.1, fr_mul_k2 ctx.dimAmp o.2)
  else o

/-- The monitor fader's unconditional dim stage. -/
def monitorDim (ctx : FaderAudioCtx) (o : List ℚ × List ℚ) :
    List ℚ × List ℚ :=
  if ctx.dimOutput then (fr_mul_k2 ctx.dimAmp o.1, fr_mul_k2 ctx.dimAmp o.2)
  else o

/-- How the audio section of `process_block` ends: `aborted` models a
`z_return_if_fail_cmp` early return (the buffers keep what was written
so far and `was_effectively_muted_` is not updated); `finished` is the
normal completion. -/
inductive FaderStage where
  | aborted (outs : List ℚ × List ℚ) (st : FaderFadeState)
  | finished (outs : List ℚ × List ℚ) (st : FaderFadeState)
  deriving Repr

/-- The tail of the non-passthrough pipeline after both
`z_return_if_fail_cmp` guards: fade-out with its silence tail, pan and
amp, mono-compat, phase swap, the mute stage (with the source's
asymmetry: the first channel is multiplied from the block start, the
second from `faded_out_frames`), and the final hard clip for master,
monitor and sample-processor faders. -/
def coreFinish (ctx : FaderAudioCtx) (effMuted : Bool) (muteAmp : ℚ)
    (dff : ℤ) (nframes : ℕ) (st2 : FaderFadeState)
    (outP2 : List ℚ × List ℚ) : FaderStage :=
  let fadeOut0 := st2.fadeOutSamples
  let samplesToProcess : ℤ := max 0 (min fadeOut0 (nframes : ℤ))
  let doFade := st2.fadingOut && decide (0 < fadeOut0)
  let outP3 : List ℚ × List ℚ :=
    if doFade then
      (linearFadeOutTo (dff - fadeOut0) dff muteAmp
        samplesToProcess.toNat outP2.1,
       linearFadeOutTo (dff - fadeOut0) dff muteAmp
        samplesToProcess.toNat outP2.2)
    else outP2
  let fadeOut1 := if doFade then fadeOut0 - samplesToProcess else fadeOut0
  let faded1 : ℕ := if doFade then samplesToProcess.toNat else 0
  let st3 :=
    if doFade then { st2 with fadeOutSamples := fadeOut1 } else st2
  let remaining : ℕ := nframes - samplesToProcess.toNat
  let doSilence :=
    st2.fadingOut && decide (fadeOut1 = 0) && decide (0 < remaining)
  let outP4 : List ℚ × List ℚ :=
    if doSilence then
      (applyFrom faded1 (fr_mul_k2 muteAmp) outP3.1,
       applyFrom faded1 (fr_mul_k2 muteAmp) outP3.2)
    else outP3
  let faded2 : ℕ := if doSilence then faded1 + remaining else faded1
  let panCalc := balanceControlLinear ctx.balance
  let outP5 : List ℚ × List ℚ :=
    (fr_mul_k2 (ctx.amp * panCalc.1) outP4.1,
     fr_mul_k2 (ctx.amp * panCalc.2) outP4.2)
  let outP6 : List ℚ × List ℚ :=
    if ctx.monoCompat then fr_make_mono outP5.1 outP5.2 else outP5
  let outP7 : List ℚ × List ℚ :=
    if ctx.swapPhase then
      (fr_mul_k2 (-1) outP6.1, fr_mul_k2 (-1) outP6.2)
    else outP6
  let outP8 : List ℚ × List ℚ :=
    if effMuted && decide (st3.fadeOutSamples = 0)
        && decide (0 < nframes - faded2) then
      if muteAmp < 1/100000 then
        (applyFrom faded2 (fr_fill ctx.denormalPreventionVal) outP7.1,
         applyFrom faded2 (fr_fill ctx.denormalPreventionVal) outP7.2)
      else
        (mulPrefixK muteAmp (nframes - faded2) outP7.1,
         applyFrom faded2 (fr_mul_k2 muteAmp) outP7.2)
    else outP7
  let isClipped :=
    (ctx.mctx.ftype = FaderType.AudioChannel
      ∧ ctx.mctx.trackIsMaster = true)
    ∨ ctx.mctx.ftype = FaderType.Monitor
    ∨ ctx.mctx.ftype = FaderType.SampleProcessor
  let outP9 : List ℚ × List ℚ :=
    if isClipped then (fr_clip (-2) 2 outP8.1, fr_clip (-2) 2 outP8.2)
    else outP8
  FaderStage.finished outP9 st3

/-- The fade-in and fade-out guard stages of the pipeline, starting
from the post-arming state `st1` and the post-monitor buffers
`outP1`. -/
def corePhase2 (ctx : FaderAudioCtx) (effMuted : Bool) (muteAmp : ℚ)
    (dff : ℤ) (nframes : ℕ) (st1 : FaderFadeState)
    (outP1 : List ℚ × List ℚ) : FaderStage :=
  let fadeIn := st1.fadeInSamples
  if 0 < fadeIn ∧ dff < fadeIn then FaderStage.aborted outP1 st1
  else
    let outP2 : List ℚ × List ℚ :=
      if 0 < fadeIn then
        (linearFadeInFrom (dff - fadeIn) dff muteAmp outP1.1,
         linearFadeInFrom (dff - fadeIn) dff muteAmp outP1.2)
      else outP1
    let st2 : FaderFadeState :=
      if 0 < fadeIn then { st1 with fadeInSamples := max (fadeIn - nframes) 0 }
      else st1
    if st2.fadingOut = true ∧ 0 < st2.fadeOutSamples
        ∧ dff < st2.fadeOutSamples then
      FaderStage.aborted outP2 st2
    else coreFinish ctx effMuted muteAmp dff nframes st2 outP2

/-- The non-passthrough audio pipeline of `Fader::process_block`:
monitor dim/listen or mute-amp selection and fade arming, then the
fade/pan/mute/clip stages. -/
def faderProcessCore (ctx : FaderAudioCtx) (st : FaderFadeState)
    (inL inR : List ℚ) : FaderStage :=
  let nframes := inL.length
  let effMuted := effectivelyMuted ctx.mctx
  let dff : ℤ :=
    (fadeFramesForType ctx.defaultFadeFramesLong ctx.defaultFadeFramesShort
      ctx.mctx.ftype : ℤ)
  let muteAmp : ℚ :=
    if ctx.mctx.ftype = FaderType.Monitor then ctx.denormalPreventionVal
    else ctx.muteFaderAmp
  let outP1 : List ℚ × List ℚ :=
    if ctx.mctx.ftype = FaderType.Monitor then
      monitorDim ctx (monitorMix ctx (inL, inR))
    else (inL, inR)
  let st1 : FaderFadeState :=
    if ctx.mctx.ftype = FaderType.Monitor then st
    else if effMuted && !st.wasEffectivelyMuted then
      { st with fadeOutSamples := dff, fadingOut := true }
    else if !effMuted && st.wasEffectivelyMuted then
      { st with fadingOut := false, fadeInSamples := dff }
    else st
  corePhase2 ctx effMuted muteAmp dff nframes st1 outP1

/-- `Fader::process_block` for a fader with audio ports: copy input to
output, run the non-passthrough pipeline (a passthrough only copies),
and record `was_effectively_muted_` — except after a
`z_return_if_fail` abort, which skips that store. -/
def faderProcessAudio (ctx : FaderAudioCtx) (st : FaderFadeState)
    (inL inR : List ℚ) : (List ℚ × List ℚ) × FaderFadeState :=
  let effMuted := effectivelyMuted ctx.mctx
  if ctx.mctx.passthrough then
    ((inL, inR), { st with wasEffectivelyMuted := effMuted })
  else
    match faderProcessCore ctx st inL inR with
    | FaderStage.aborted o s => (o, s)
    | FaderStage.finished o s =>
      (o, { s with wasEffectivelyMuted := effMuted })

/-- The stereo buffers a pipeline stage ends with. -/
def FaderStage.outs : FaderStage → List ℚ × List ℚ
  | FaderStage.aborted o _ => o
  | FaderStage.finished o _ => o

/-- The fade/mute state a pipeline stage ends with. -/
def FaderStage.state : FaderStage → FaderFadeState
  | FaderStage.aborted _ s => s
  | FaderStage.finished _ s => s

/-- Clipping bounds every sample by the clip interval. -/
theorem fr_clip_bounds (lo hi : ℚ) (hlh : lo ≤ hi) (l : List ℚ) :
    ∀ x ∈ fr_clip lo hi l, lo ≤ x ∧ x ≤ hi := by
  intro x hx
  obtain ⟨y, _, rfl⟩ := List.mem_map.mp hx
  exact ⟨le_max_left _ _, max_le hlh (min_le_right _ _)⟩

/-- After the final stage of a master/monitor/sample-processor fader,
every sample is inside `[-2, 2]`: the clip is the last write. -/
theorem coreFinish_bounds (ctx : FaderAudioCtx) (eff : Bool) (ma : ℚ)
    (dff : ℤ) (n : ℕ) (st2 : FaderFadeState) (o2 : List ℚ × List ℚ)
    (hclip : (ctx.mctx.ftype = FaderType.AudioChannel
        ∧ ctx.mctx.trackIsMaster = true)
      ∨ ctx.mctx.ftype = FaderType.Monitor
      ∨ ctx.mctx.ftype = FaderType.SampleProcessor) :
    (∀ x ∈ (coreFinish ctx eff ma dff n st2 o2).outs.1, -2 ≤ x ∧ x ≤ 2)
    ∧ (∀ x ∈ (coreFinish ctx eff ma dff n st2 o2).outs.2,
        -2 ≤ x ∧ x ≤ 2) := by
  simp only [coreFinish, FaderStage.outs]
  rw [if_pos hclip]
  exact ⟨fr_clip_bounds _ _ (by norm_num) _,
    fr_clip_bounds _ _ (by norm_num) _⟩

/-- The two abort guards cannot fire while the fade counters are within
the fade length, so the pipeline completes and clips. -/
theorem corePhase2_bounds (ctx : FaderAudioCtx) (eff : Bool) (ma : ℚ)
    (dff : ℤ) (n : ℕ) (st1 : FaderFadeState) (o1 : List ℚ × List ℚ)
    (hclip : (ctx.mctx.ftype = FaderType.AudioChannel
        ∧ ctx.mctx.trackIsMaster = true)
      ∨ ctx.mctx.ftype = FaderType.Monitor
      ∨ ctx.mctx.ftype = FaderType.SampleProcessor)
    (hfi : st1.fadeInSamples ≤ dff) (hfo : st1.fadeOutSamples ≤ dff) :
    (∀ x ∈ (corePhase2 ctx eff ma dff n st1 o1).outs.1, -2 ≤ x ∧ x ≤ 2)
    ∧ (∀ x ∈ (corePhase2 ctx eff ma dff n st1 o1).outs.2,
        -2 ≤ x ∧ x ≤ 2) := by
  simp only [corePhase2]
  rw [if_neg (fun hc => absurd hc.2 (not_lt.mpr hfi))]
  by_cases h0 : 0 < st1.fadeInSamples
  · simp only [if_pos h0]
    rw [if_neg (fun hc => absurd hc.2.2 (not_lt.mpr hfo))]
    exact coreFinish_bounds ctx eff ma dff n _ _ hclip
  · simp only [if_neg h0]
    rw [if_neg (fun hc => absurd hc.2.2 (not_lt.mpr hfo))]
    exact coreFinish_bounds ctx eff ma dff n _ _ hclip

/-- Bounds through the whole non-passthrough pipeline, given that the
fade counters sit within the fade length (they are only ever armed to
the fade length and decremented toward zero). -/
theorem faderProcessCore_bounds (ctx : FaderAudioCtx)
    (st : FaderFadeState) (inL inR : List ℚ)
    (hclip : (ctx.mctx.ftype = FaderType.AudioChannel
        ∧ ctx.mctx.trackIsMaster = true)
      ∨ ctx.mctx.ftype = FaderType.Monitor
      ∨ ctx.mctx.ftype = FaderType.SampleProcessor)
    (hfi : st.fadeInSamples ≤
      (fadeFramesForType ctx.defaultFadeFramesLong
        ctx.defaultFadeFramesShort ctx.mctx.ftype : ℤ))
    (hfo : st.fadeOutSamples ≤
      (fadeFramesForType ctx.defaultFadeFramesLong
        ctx.defaultFadeFramesShort ctx.mctx.ftype : ℤ)) :
    (∀ x ∈ (faderProcessCore ctx st inL inR).outs.1, -2 ≤ x ∧ x ≤ 2)
    ∧ (∀ x ∈ (faderProcessCore ctx st inL inR).outs.2,
        -2 ≤ x ∧ x ≤ 2) := by
  simp only [faderProcessCore]
  apply corePhase2_bounds _ _ _ _ _ _ _ hclip
  · split_ifs <;> simpa using hfi
  · split_ifs <;> simpa using hfo

/-- C5: every sample a non-passthrough Master (audio channel of the
master track), Monitor or SampleProcessor fader writes to its stereo
output lies in `[-2, 2]` once the block is processed. -/
theorem c5_master_monitor_sp_hard_clipped (ctx : FaderAudioCtx)
    (st : FaderFadeState) (inL inR : List ℚ)
    (hpass : ctx.mctx.passthrough = false)
    (hclip : (ctx.mctx.ftype = FaderType.AudioChannel
        ∧ ctx.mctx.trackIsMaster = true)
      ∨ ctx.mctx.ftype = FaderType.Monitor
      ∨ ctx.mctx.ftype = FaderType.SampleProcessor)
    (hfi : st.fadeInSamples ≤
      (fadeFramesForType ctx.defaultFadeFramesLong
        ctx.defaultFadeFramesShort ctx.mctx.ftype : ℤ))
    (hfo : st.fadeOutSamples ≤
      (fadeFramesForType ctx.defaultFadeFramesLong
        ctx.defaultFadeFramesShort ctx.mctx.ftype : ℤ)) :
    (∀ x ∈ (faderProcessAudio ctx st inL inR).1.1, -2 ≤ x ∧ x ≤ 2)
    ∧ (∀ x ∈ (faderProcessAudio ctx st inL inR).1.2,
        -2 ≤ x ∧ x ≤ 2) := by
  have hcore := faderProcessCore_bounds ctx st inL inR hclip hfi hfo
  have houts :
      (faderProcessAudio ctx st inL inR).1 =
        (faderProcessCore ctx st inL inR).outs := by
    simp only [faderProcessAudio, hpass, Bool.false_eq_true, if_false]
    cases h : faderProcessCore ctx st inL inR <;>
      simp [h, FaderStage.outs]
  rw [houts]
  exact hcore

/-- `fr_mul_k2` with unit gain is the identity. -/
theorem fr_mul_k2_one (l : List ℚ) : fr_mul_k2 1 l = l := by
  simp [fr_mul_k2]

/-- Centered balance gives unit gain on both channels (the spec's pan
law at `balance = 0.5`). -/
theorem balanceControlLinear_center : balanceControlLinear (1/2) = (1, 1) := by
  norm_num [balanceControlLinear]

/-- The fade-out gain stays within `[mute_amp, 1] ⊆ [0, 1]` for
non-negative fade positions. -/
theorem fadeOutGain_bounds (total : ℤ) (m : ℚ) (p : ℤ) (hT : 0 < total)
    (hp : 0 ≤ p) (h0 : 0 ≤ m) (h1 : m ≤ 1) :
    0 ≤ fadeOutGain total m p ∧ fadeOutGain total m p ≤ 1 := by
  unfold fadeOutGain
  split_ifs with h
  · exact ⟨h0, h1⟩
  · push_neg at h
    have hTq : (0 : ℚ) < (total : ℚ) := by exact_mod_cast hT
    have hpq : (0 : ℚ) ≤ (p : ℚ) := by exact_mod_cast hp
    have hplt : (p : ℚ) < (total : ℚ) := by exact_mod_cast h
    have hr0 : (0 : ℚ) ≤ (p : ℚ) / (total : ℚ) := div_nonneg hpq hTq.le
    have hr1 : (p : ℚ) / (total : ℚ) < 1 := (div_lt_one hTq).mpr hplt
    constructor <;> nlinarith

/-- The faded block keeps samples inside `[-2, 2]` when the input does
and the mute amp sits in `[0, 1]`. -/
theorem linearFadeOutTo_bounds (total : ℤ) (m : ℚ) (n : ℕ) (l : List ℚ)
    (hT : 0 < total) (h0 : 0 ≤ m) (h1 : m ≤ 1)
    (hb : ∀ x ∈ l, -2 ≤ x ∧ x ≤ 2) :
    ∀ x ∈ linearFadeOutTo 0 total m n l, -2 ≤ x ∧ x ≤ 2 := by
  intro x hx
  obtain ⟨j, y, hy, rfl⟩ := mem_mapIdxFrom _ _ _ _ hx
  obtain ⟨hy1, hy2⟩ := hb y hy
  by_cases hj : j < n
  · simp only [if_pos hj, zero_add]
    obtain ⟨hg0, hg1⟩ := fadeOutGain_bounds total m (j : ℤ) hT
      (Int.ofNat_nonneg j) h0 h1
    constructor <;> nlinarith
  · simp only [if_neg hj]
    exact ⟨hy1, hy2⟩

/-- Clipping a buffer already inside `[-2, 2]` changes nothing. -/
theorem fr_clip_id (l : List ℚ) (h : ∀ x ∈ l, -2 ≤ x ∧ x ≤ 2) :
    fr_clip (-2) 2 l = l := by
  unfold fr_clip
  conv_rhs => rw [← List.map_id l]
  apply List.map_congr_left
  intro a ha
  obtain ⟨h1, h2⟩ := h a ha
  rw [min_eq_left h2, max_eq_right h1]
  rfl

/-- `mapIdxFrom` only looks at the function below the list length. -/
theorem mapIdxFrom_congr (f g : ℕ → ℚ → ℚ) :
    ∀ (s : ℕ) (l : List ℚ),
      (∀ i x, s ≤ i → i < s + l.length → f i x = g i x) →
      mapIdxFrom f s l = mapIdxFrom g s l := by
  intro s l
  induction l generalizing s with
  | nil => intro _; rfl
  | cons a t ih =>
    intro h
    simp only [mapIdxFrom]
    rw [h s a le_rfl (by simp), ih (s + 1) fun i x h1 h2 =>
      h i x (by omega) (by simp at h2 ⊢; omega)]

/-- The first block after a mute transition, through the tail stages:
with the fade freshly armed to the whole fade length `S`, a block of
`nframes ≤ S` frames is faded from position 0, the counter drops to
`S - nframes`, and (at unit amp, centered pan, no mono/phase/mute
stage) nothing else touches the samples — the hard clip, when it
applies, is the identity on the already-bounded faded samples. -/
theorem coreFinish_first_fade_block (ctx : FaderAudioCtx) (eff : Bool)
    (ma : ℚ) (st2 : FaderFadeState) (inL inR : List ℚ) (S : ℤ)
    (hfo : st2.fadeOutSamples = S) (hfd : st2.fadingOut = true)
    (hS : 0 < S) (hn : (inL.length : ℤ) ≤ S)
    (hamp : ctx.amp = 1) (hbal : ctx.balance = 1/2)
    (hmono : ctx.monoCompat = false) (hswap : ctx.swapPhase = false)
    (hma0 : 0 ≤ ma) (hma1 : ma ≤ 1)
    (hbL : ∀ x ∈ inL, -2 ≤ x ∧ x ≤ 2)
    (hbR : ∀ x ∈ inR, -2 ≤ x ∧ x ≤ 2) :
    coreFinish ctx eff ma S inL.length st2 (inL, inR) =
      FaderStage.finished
        (linearFadeOutTo 0 S ma inL.length inL,
         linearFadeOutTo 0 S ma inL.length inR)
        { st2 with fadeOutSamples := S - inL.length } := by
  have hnn : (0 : ℤ) ≤ (inL.length : ℤ) := Int.ofNat_nonneg _
  have hstp : max 0 (min S (inL.length : ℤ)) = (inL.length : ℤ) := by
    rw [min_eq_right hn, max_eq_right hnn]
  simp only [coreFinish, hfo, hfd, hstp, Int.toNat_natCast, sub_self,
    decide_eq_true hS, Bool.true_and, Bool.and_true, eq_self_iff_true,
    if_true, Nat.sub_self, decide_eq_false (lt_irrefl 0), Bool.and_false,
    Bool.false_eq_true, if_false, hbal, balanceControlLinear_center,
    hamp, one_mul, mul_one, hmono, hswap]
  rw [fr_mul_k2_one, fr_mul_k2_one]
  have hcl1 := fr_clip_id _ (linearFadeOutTo_bounds S ma inL.length inL
    hS hma0 hma1 hbL)
  have hcl2 := fr_clip_id _ (linearFadeOutTo_bounds S ma inL.length inR
    hS hma0 hma1 hbR)
  split_ifs with hcl
  · rw [hcl1, hcl2]
  · rfl

/-- C4: a non-monitor, non-passthrough audio fader that turns
effectively muted with no fade-in pending arms a linear fade-out of
`FADER_DEFAULT_FADE_FRAMES_SHORT` samples (`fade_frames_for_type`
returns `FADER_DEFAULT_FADE_FRAMES` only for the monitor fader),
leaves `fading_out` set with `FADER_DEFAULT_FADE_FRAMES_SHORT - nframes`
fade samples remaining, and — at unit amp and centered pan — the first
block's output sample at index `i` equals
`in[i] * (1 - i/N * (1 - mute_amp))`: the gain ramps linearly from 1
toward `mute_amp` across `N = FADER_DEFAULT_FADE_FRAMES_SHORT`
samples. -/
theorem c4_mute_transition_first_block (ctx : FaderAudioCtx)
    (st : FaderFadeState) (inL inR : List ℚ)
    (hpass : ctx.mctx.passthrough = false)
    (hmon : ¬ ctx.mctx.ftype = FaderType.Monitor)
    (heff : effectivelyMuted ctx.mctx = true)
    (hwas : st.wasEffectivelyMuted = false)
    (hfi : st.fadeInSamples = 0)
    (hNpos : 0 < ctx.defaultFadeFramesShort)
    (hn : inL.length ≤ ctx.defaultFadeFramesShort)
    (hlen : inR.length = inL.length)
    (hamp : ctx.amp = 1) (hbal : ctx.balance = 1/2)
    (hmono : ctx.monoCompat = false) (hswap : ctx.swapPhase = false)
    (hma0 : 0 ≤ ctx.muteFaderAmp) (hma1 : ctx.muteFaderAmp ≤ 1)
    (hbL : ∀ x ∈ inL, -2 ≤ x ∧ x ≤ 2)
    (hbR : ∀ x ∈ inR, -2 ≤ x ∧ x ≤ 2) :
    fadeFramesForType ctx.defaultFadeFramesLong ctx.defaultFadeFramesShort
        ctx.mctx.ftype = ctx.defaultFadeFramesShort
    ∧ fadeFramesForType ctx.defaultFadeFramesLong
        ctx.defaultFadeFramesShort FaderType.Monitor
        = ctx.defaultFadeFramesLong
    ∧ (faderProcessAudio ctx st inL inR).2 =
        { fadeInSamples := 0,
          fadeOutSamples :=
            (ctx.defaultFadeFramesShort : ℤ) - inL.length,
          fadingOut := true, wasEffectivelyMuted := true }
    ∧ (faderProcessAudio ctx st inL inR).1.1 =
        mapIdxFrom
          (fun i x => x *
            (1 - (i : ℚ) / (ctx.defaultFadeFramesShort : ℚ)
              * (1 - ctx.muteFaderAmp))) 0 inL
    ∧ (faderProcessAudio ctx st inL inR).1.2 =
        mapIdxFrom
          (fun i x => x *
            (1 - (i : ℚ) / (ctx.defaultFadeFramesShort : ℚ)
              * (1 - ctx.muteFaderAmp))) 0 inR
    ∧ ∀ (i : ℕ) (h : i < inL.length),
        (mapIdxFrom
          (fun i x => x *
            (1 - (i : ℚ) / (ctx.defaultFadeFramesShort : ℚ)
              * (1 - ctx.muteFaderAmp))) 0 inL).get ⟨i, by simpa using h⟩
          = inL.get ⟨i, h⟩ *
            (1 - (i : ℚ) / (ctx.defaultFadeFramesShort : ℚ)
              * (1 - ctx.muteFaderAmp)) := by
  have hSpos : (0 : ℤ) < (ctx.defaultFadeFramesShort : ℤ) := by
    exact_mod_cast hNpos
  have hnS : ((inL.length : ℤ)) ≤ (ctx.defaultFadeFramesShort : ℤ) := by
    exact_mod_cast hn
  have hdff :
      fadeFramesForType ctx.defaultFadeFramesLong
        ctx.defaultFadeFramesShort ctx.mctx.ftype
        = ctx.defaultFadeFramesShort := by
    simp [fadeFramesForType, hmon]
  -- the arming stage produces the freshly armed state
  have harm : faderProcessCore ctx st inL inR =
      corePhase2 ctx true
        ctx.muteFaderAmp ((ctx.defaultFadeFramesShort : ℕ) : ℤ)
        inL.length
        { st with
            fadeOutSamples := ((ctx.defaultFadeFramesShort : ℕ) : ℤ),
            fadingOut := true }
        (inL, inR) := by
    simp only [faderProcessCore, hdff, heff, hwas, hmon,
      Bool.not_false, Bool.and_self, if_true, Bool.false_eq_true,
      if_false, eq_self_iff_true]
  -- the two guards pass and the tail computes the faded block
  have hcore : faderProcessCore ctx st inL inR =
      FaderStage.finished
        (linearFadeOutTo 0 (ctx.defaultFadeFramesShort : ℤ)
          ctx.muteFaderAmp inL.length inL,
         linearFadeOutTo 0 (ctx.defaultFadeFramesShort : ℤ)
          ctx.muteFaderAmp inL.length inR)
        { st with
            fadeOutSamples :=
              (ctx.defaultFadeFramesShort : ℤ) - inL.length,
            fadingOut := true } := by
    rw [harm]
    simp only [corePhase2, hfi, lt_irrefl, false_and, if_false,
      if_neg (lt_irrefl (0 : ℤ))]
    rw [if_neg ?hguard2]
    case hguard2 =>
      intro hc
      exact hc.2.2
    exact coreFinish_first_fade_block ctx true ctx.muteFaderAmp _ inL inR
      _ rfl rfl hSpos hnS hamp hbal hmono hswap hma0 hma1 hbL hbR
  have hres : faderProcessAudio ctx st inL inR =
      ((linearFadeOutTo 0 (ctx.defaultFadeFramesShort : ℤ)
          ctx.muteFaderAmp inL.length inL,
        linearFadeOutTo 0 (ctx.defaultFadeFramesShort : ℤ)
          ctx.muteFaderAmp inL.length inR),
       { fadeInSamples := st.fadeInSamples,
         fadeOutSamples := (ctx.defaultFadeFramesShort : ℤ) - inL.length,
         fadingOut := true, wasEffectivelyMuted := true }) := by
    simp only [faderProcessAudio, hpass, Bool.false_eq_true, if_false,
      hcore, heff]
  have hfade : ∀ l : List ℚ, l.length ≤ inL.length →
      linearFadeOutTo 0 (ctx.defaultFadeFramesShort : ℤ)
        ctx.muteFaderAmp inL.length l =
      mapIdxFrom
        (fun i x => x *
          (1 - (i : ℚ) / (ctx.defaultFadeFramesShort : ℚ)
            * (1 - ctx.muteFaderAmp))) 0 l := by
    intro l hl
    unfold linearFadeOutTo
    apply mapIdxFrom_congr
    intro i x _ hi
    have hin : i < inL.length := by omega
    rw [if_pos hin]
    have hiS : ¬ ((ctx.defaultFadeFramesShort : ℤ) ≤ 0 + (i : ℤ)) := by
      push_neg
      omega
    rw [fadeOutGain, if_neg hiS]
    push_cast
    ring
  refine ⟨hdff, by simp [fadeFramesForType], ?_, ?_, ?_, ?_⟩
  · rw [hres, hfi]
  · rw [hres, hfade inL le_rfl]
  · rw [hres, hfade inR (le_of_eq hlen)]
  · intro i h
    rw [mapIdxFrom_getElem _ 0 inL i h]
    simp

/-- A concrete non-monitor channel-fader context: muted, unit amp,
centered pan, mute-fader amp 1/2, fade lengths 8192/4. -/
def c4DemoCtx : FaderAudioCtx :=
  { mctx :=
      { passthrough := false, ftype := FaderType.AudioChannel,
        muted := true, soloed := false, impliedSoloed := false,
        hasSoloed := false, bounceOn := false, trackIsMaster := false,
        trackBounce := false },
    amp := 1, balance := 1/2, monoCompat := false, swapPhase := false,
    muteFaderAmp := 1/2, denormalPreventionVal := 0, dimAmp := 1,
    listenAmp := 1, dimOutput := false, hasListened := false,
    listened := [], defaultFadeFramesLong := 8192,
    defaultFadeFramesShort := 4 }

/-- C4 witness: a freshly muted fader processing the 2-frame block
`[1, -1]` with fade length 4 and mute amp 1/2 arms the fade
(2 samples remain) and outputs `[1 * 1, -1 * 7/8]`. -/
theorem c4_mute_transition_first_block_witness :
    effectivelyMuted c4DemoCtx.mctx = true
    ∧ (faderProcessAudio c4DemoCtx ⟨0, 0, false, false⟩
        [1, -1] [1/2, 0]).2 = ⟨0, 2, true, true⟩
    ∧ (faderProcessAudio c4DemoCtx ⟨0, 0, false, false⟩
        [1, -1] [1/2, 0]).1.1 = [1, -7/8] := by
  have h := c4_mute_transition_first_block c4DemoCtx ⟨0, 0, false, false⟩
    [1, -1] [1/2, 0] rfl (by decide) (by decide) rfl rfl
    (by norm_num [c4DemoCtx]) (by norm_num [c4DemoCtx]) rfl rfl rfl rfl
    rfl (by norm_num [c4DemoCtx]) (by norm_num [c4DemoCtx])
    (by norm_num) (by norm_num)
  refine ⟨by decide, ?_, ?_⟩
  · rw [h.2.2.1]
    norm_num [c4DemoCtx]
  · rw [h.2.2.2.1]
    norm_num [c4DemoCtx, mapIdxFrom]

/-- The master track's prefader: a passthrough audio-channel fader of
the master track. -/
def c5PrefaderCtx : FaderAudioCtx :=
  { mctx :=
      { passthrough := true, ftype := FaderType.AudioChannel,
        muted := false, soloed := false, impliedSoloed := false,
        hasSoloed := false, bounceOn := false, trackIsMaster := true,
        trackBounce := false },
    amp := 1, balance := 1/2, monoCompat := false, swapPhase := false,
    muteFaderAmp := 1/2, denormalPreventionVal := 0, dimAmp := 1,
    listenAmp := 1, dimOutput := false, hasListened := false,
    listened := [], defaultFadeFramesLong := 8192,
    defaultFadeFramesShort := 4 }

/-- C5 (counterexample): the master track's prefader is an audio
channel fader of the master track, but as a passthrough it only copies
its input; a 3.0 sample passes through unclipped, so the claim fails
without the non-passthrough restriction (the hard clip sits inside the
non-prefader branch). -/
theorem c5_passthrough_master_prefader_not_clipped :
    c5PrefaderCtx.mctx.ftype = FaderType.AudioChannel
    ∧ c5PrefaderCtx.mctx.trackIsMaster = true
    ∧ (faderProcessAudio c5PrefaderCtx ⟨0, 0, false, false⟩
        [3] [0]).1.1 = [3]
    ∧ ¬ ((3 : ℚ) ≤ 2) := by
  exact ⟨rfl, rfl, by decide, by norm_num⟩

/-- A concrete sample-processor fader context. -/
def c5DemoCtx : FaderAudioCtx :=
  { mctx :=
      { passthrough := false, ftype := FaderType.SampleProcessor,
        muted := false, soloed := false, impliedSoloed := false,
        hasSoloed := false, bounceOn := false, trackIsMaster := false,
        trackBounce := false },
    amp := 1, balance := 1/2, monoCompat := false, swapPhase := false,
    muteFaderAmp := 1/2, denormalPreventionVal := 0, dimAmp := 1,
    listenAmp := 1, dimOutput := false, hasListened := false,
    listened := [], defaultFadeFramesLong := 8192,
    defaultFadeFramesShort := 4 }

/-- C5 witness (for the amended theorem): a sample-processor fader fed
the out-of-range block `[3, -5]` still ends within `[-2, 2]` on both
channels. -/
theorem c5_master_monitor_sp_hard_clipped_witness :
    c5DemoCtx.mctx.passthrough = false
    ∧ (∀ x ∈ (faderProcessAudio c5DemoCtx ⟨0, 0, false, false⟩
        [3, -5] [0, 1]).1.1, -2 ≤ x ∧ x ≤ 2)
    ∧ (∀ x ∈ (faderProcessAudio c5DemoCtx ⟨0, 0, false, false⟩
        [3, -5] [0, 1]).1.2, -2 ≤ x ∧ x ≤ 2) := by
  have h := c5_master_monitor_sp_hard_clipped c5DemoCtx
    ⟨0, 0, false, false⟩ [3, -5] [0, 1] rfl
    (Or.inr (Or.inr rfl)) (by decide) (by decide)
  exact ⟨rfl, h.1, h.2⟩
